import Mathlib

/-!
# Verification of the vibecheck document store, ingestion pipeline and matching engine

Shallow embedding of the Go sources of `kfreiman/vibecheck`:

* `internal/storage/manager.go` — content-addressed store (ID generation,
  save/read/exists, URI parsing, TTL cleanup);
* `internal/mcp/analyze_tool.go` — frontmatter stripping;
* `internal/converter/converter.go` — input classification;
* `internal/ingest/retry.go`, `internal/ingest/errors.go`,
  `internal/mcp/ingest_tool.go` — retry harness and conversion fallback;
* `internal/analysis/engine.go`, scoring and skill-extraction files —
  matching engine.

Go strings and byte slices are both modelled as `List Char` (`Str`), one
character per byte; all concrete inputs used in theorems are ASCII, where
Go's byte-oriented string operations and this model agree.  Go `float64`
is modelled as `ℚ` (exact arithmetic); `int` as `Int`/`Nat` with the
conversions made explicit.
-/

set_option maxRecDepth 100000
set_option linter.unusedVariables false

attribute [local semireducible] Rat.add Rat.mul Rat.sub Rat.inv

namespace Vibecheck

/-- Go strings / byte slices: a list of characters, one per byte. -/
abbrev Str := List Char

/-- ASCII lower-casing of one character (model of `unicode.ToLower` on ASCII). -/
def toLowerChar (c : Char) : Char :=
  if 'A' ≤ c ∧ c ≤ 'Z' then Char.ofNat (c.toNat + 32) else c

/-- Model of Go `strings.ToLower` (ASCII fragment). -/
def strToLower (s : Str) : Str := s.map toLowerChar

/-- ASCII whitespace, the fragment of `unicode.IsSpace` used here. -/
def isSpaceChar (c : Char) : Bool :=
  c = ' ' || c = '\t' || c = '\n' || c = '\r' || c.toNat = 11 || c.toNat = 12

/-- Model of Go `strings.TrimSpace` (ASCII whitespace). -/
def trimSpace (s : Str) : Str :=
  ((s.dropWhile isSpaceChar).reverse.dropWhile isSpaceChar).reverse

/-- Helper for `fields`: accumulates the current word (reversed). -/
def fieldsAux : Str → Str → List Str
  | acc, [] => if acc = [] then [] else [acc.reverse]
  | acc, c :: rest =>
    if isSpaceChar c then
      if acc = [] then fieldsAux [] rest else acc.reverse :: fieldsAux [] rest
    else fieldsAux (c :: acc) rest

/-- Model of Go `strings.Fields`: split around runs of whitespace. -/
def fields (s : Str) : List Str := fieldsAux [] s

/-- Go `strings.HasPrefix s p`. -/
def startsWith (s p : Str) : Bool := decide (s.take p.length = p)

/-- First index at which `pat` occurs in `s` (leftmost match). -/
def findSubIdx : Str → Str → Option Nat
  | s, pat =>
    if startsWith s pat then some 0
    else
      match s with
      | [] => none
      | _ :: rest => (findSubIdx rest pat).map (· + 1)

/-- Go `strings.Contains s pat`. -/
def containsSub (s pat : Str) : Bool := (findSubIdx s pat).isSome

/-- Fuelled worker for `countSub`. -/
def countSubFuel : Nat → Str → Str → Nat
  | 0, _, _ => 0
  | fuel + 1, s, pat =>
    match findSubIdx s pat with
    | none => 0
    | some i => 1 + countSubFuel fuel (s.drop (i + pat.length)) pat

/-- Go `strings.Count s pat` (non-overlapping occurrences; `pat = ""` counts
length+1 as in Go). -/
def countSub (s pat : Str) : Nat :=
  if pat = [] then s.length + 1 else countSubFuel s.length s pat

/-- Split on a single separator character (Go `strings.Split s sep` for a
one-character separator). -/
def splitOnChar (sep : Char) : Str → List Str
  | [] => [[]]
  | c :: rest =>
    if c = sep then [] :: splitOnChar sep rest
    else
      match splitOnChar sep rest with
      | [] => [[c]]
      | w :: ws => (c :: w) :: ws

/-- Go `filepath.Ext`: the suffix starting at the final dot of the final
slash-separated element, empty if there is no such dot. -/
def extOf (name : Str) : Str :=
  let rev := name.reverse.takeWhile (fun c => c ≠ '/')
  let pre := rev.takeWhile (fun c => c ≠ '.')
  if pre.length = rev.length then [] else '.' :: pre.reverse

/-- Fuelled decimal rendering of a natural number. -/
def natToStrAux : Nat → Nat → Str
  | 0, _ => []
  | fuel + 1, n =>
    if n < 10 then [Char.ofNat (48 + n)]
    else natToStrAux fuel (n / 10) ++ [Char.ofNat (48 + n % 10)]

/-- Decimal rendering of a natural number (model of `fmt` integer printing). -/
def natToStr (n : Nat) : Str := natToStrAux (n + 1) n

/-- The bytes of an (ASCII) string. -/
def strBytes (s : Str) : List Nat := s.map Char.toNat

/-! ## SHA-1 (used by `GenerateID` via `crypto/sha1` and `uuid.NewSHA1`) -/

/-- Truncation to 32 bits. -/
def w32 (n : Nat) : Nat := n % 4294967296

/-- Rotate a 32-bit word left by `s` bits. -/
def rotl (s n : Nat) : Nat := w32 (n * 2 ^ s + n / 2 ^ (32 - s))

/-- Bitwise complement within 32 bits (valid for `n < 2^32`). -/
def not32 (n : Nat) : Nat := 4294967295 - n

/-- `k` bytes of `n`, big-endian. -/
def beBytes : Nat → Nat → List Nat
  | 0, _ => []
  | k + 1, n => beBytes k (n / 256) ++ [n % 256]

/-- Group bytes into big-endian 32-bit words (length is a multiple of 4 here). -/
def bytesToWords : List Nat → List Nat
  | b0 :: b1 :: b2 :: b3 :: rest =>
    (((b0 * 256 + b1) * 256 + b2) * 256 + b3) :: bytesToWords rest
  | _ => []

/-- Fuelled chunking of a list into pieces of `n` elements. -/
def chunksOf (n : Nat) : Nat → List Nat → List (List Nat)
  | 0, _ => []
  | _, [] => []
  | fuel + 1, ws => ws.take n :: chunksOf n fuel (ws.drop n)

/-- SHA-1 padding: `0x80`, zeros, then the 64-bit big-endian bit length. -/
def sha1Pad (msg : List Nat) : List Nat :=
  let L := msg.length
  msg ++ 128 :: List.replicate ((119 - L % 64) % 64) 0 ++ beBytes 8 (8 * L)

/-- Extend the (reversed) message schedule by `n` further words:
`W[t] = rotl 1 (W[t-3] xor W[t-8] xor W[t-14] xor W[t-16])`. -/
def extendSched : List Nat → Nat → List Nat
  | rw, 0 => rw
  | rw, n + 1 =>
    extendSched
      (rotl 1 (Nat.xor (Nat.xor (rw.getD 2 0) (rw.getD 7 0))
          (Nat.xor (rw.getD 13 0) (rw.getD 15 0))) :: rw) n

/-- SHA-1 round function `f_t`. -/
def sha1F (t b c d : Nat) : Nat :=
  if t < 20 then Nat.lor (Nat.land b c) (Nat.land (not32 b) d)
  else if t < 40 then Nat.xor (Nat.xor b c) d
  else if t < 60 then Nat.lor (Nat.lor (Nat.land b c) (Nat.land b d)) (Nat.land c d)
  else Nat.xor (Nat.xor b c) d

/-- SHA-1 round constants `K_t`. -/
def sha1K (t : Nat) : Nat :=
  if t < 20 then 1518500249
  else if t < 40 then 1859775393
  else if t < 60 then 2400959708
  else 3395469782

/-- One SHA-1 round on the five-word state. -/
def sha1Round (st : Nat × Nat × Nat × Nat × Nat) (tw : Nat × Nat) :
    Nat × Nat × Nat × Nat × Nat :=
  let (a, b, c, d, e) := st
  let (t, w) := tw
  (w32 (rotl 5 a + sha1F t b c d + e + sha1K t + w), a, rotl 30 b, c, d)

/-- Process one 16-word block. -/
def sha1Block (h : Nat × Nat × Nat × Nat × Nat) (block : List Nat) :
    Nat × Nat × Nat × Nat × Nat :=
  let (h0, h1, h2, h3, h4) := h
  let w := (extendSched block.reverse 64).reverse
  let (a, b, c, d, e) := (List.zip (List.range 80) w).foldl sha1Round h
  (w32 (h0 + a), w32 (h1 + b), w32 (h2 + c), w32 (h3 + d), w32 (h4 + e))

/-- SHA-1 of a byte sequence, as 20 bytes. -/
def sha1 (msg : List Nat) : List Nat :=
  let ws := bytesToWords (sha1Pad msg)
  let (h0, h1, h2, h3, h4) :=
    (chunksOf 16 ws.length ws).foldl sha1Block
      (1732584193, 4023233417, 2562383102, 271733878, 3285377520)
  beBytes 4 h0 ++ beBytes 4 h1 ++ beBytes 4 h2 ++ beBytes 4 h3 ++ beBytes 4 h4

/-! ## UUID v5 (`github.com/google/uuid`, `NewSHA1`), and `GenerateID` -/

/-- The DNS namespace UUID `6ba7b810-9dad-11d1-80b4-00c04fd430c8` as bytes
(`manager.go` uses it as the namespace for document IDs). -/
def dnsNamespaceBytes : List Nat :=
  [107, 167, 184, 16, 157, 173, 17, 209, 128, 180, 0, 192, 79, 212, 48, 200]

/-- `uuid.NewSHA1 space data`: SHA-1 of `space ++ data`, truncated to 16
bytes, with the version (5) and variant bits set. -/
def uuidV5Bytes (space data : List Nat) : List Nat :=
  let s := (sha1 (space ++ data)).take 16
  let s6 := s.set 6 (Nat.lor (Nat.land (s.getD 6 0) 15) 80)
  s6.set 8 (Nat.lor (Nat.land (s6.getD 8 0) 63) 128)

/-- Lowercase hexadecimal digit. -/
def hexDigitChar (n : Nat) : Char :=
  if n < 10 then Char.ofNat (48 + n) else Char.ofNat (87 + n)

/-- Two lowercase hex digits of a byte. -/
def byteHex (b : Nat) : Str := [hexDigitChar (b / 16), hexDigitChar (b % 16)]

/-- Lowercase hex of a byte sequence. -/
def bytesHex : List Nat → Str
  | [] => []
  | b :: bs => byteHex b ++ bytesHex bs

/-- `uuid.UUID.String()`: `8-4-4-4-12` lowercase hex groups. -/
def uuidToStr (bs : List Nat) : Str :=
  bytesHex (bs.take 4) ++ '-' ::
    (bytesHex ((bs.drop 4).take 2) ++ '-' ::
      (bytesHex ((bs.drop 6).take 2) ++ '-' ::
        (bytesHex ((bs.drop 8).take 2) ++ '-' :: bytesHex (bs.drop 10))))

/-- `manager.go` `GenerateID`: SHA-1 the content, then form a UUID v5 of that
hash in the DNS namespace, rendered as the usual 36-character string. -/
def generateID (content : Str) : Str :=
  uuidToStr (uuidV5Bytes dnsNamespaceBytes (sha1 (strBytes content)))

/-! ## Storage manager model (`internal/storage/manager.go`)

The backing filesystem is modelled per kind directory as a list of entries
in the order `os.ReadDir` / directory scans would produce them.  For
`SaveDocument` / `ReadDocument` / `DocumentExists` an entry carries a name,
an is-directory flag and file contents.  A possible Go runtime panic
(string slicing out of range) is modelled by `PanicOr`. -/

/-- `DocumentType` (`cv` / `jd`). -/
inductive DocumentType where
  | cv
  | jd
deriving DecidableEq

/-- The string of a document type (Go string constants). -/
def DocumentType.str : DocumentType → Str
  | .cv => "cv".data
  | .jd => "jd".data

/-- A directory entry: name, is-directory flag and contents. -/
structure FEntry where
  name : Str
  isDir : Bool
  content : Str
deriving DecidableEq

/-- A kind directory: entries in directory-scan order. -/
abbrev FsDir := List FEntry

/-- The two kind directories of the store (`<root>/cv`, `<root>/jd`). -/
structure Store where
  cvDir : FsDir
  jdDir : FsDir
deriving DecidableEq

/-- The directory of a kind. -/
def Store.dir (st : Store) : DocumentType → FsDir
  | .cv => st.cvDir
  | .jd => st.jdDir

/-- Replace the directory of a kind. -/
def Store.setDir (st : Store) : DocumentType → FsDir → Store
  | .cv, d => { st with cvDir := d }
  | .jd, d => { st with jdDir := d }

/-- Model of `os.Stat` inside a kind directory: does an entry of this name
exist? -/
def statFile (d : FsDir) (name : Str) : Bool := d.any (fun e => e.name = name)

/-- Model of `os.ReadFile`: contents of a non-directory entry. -/
def readFileD (d : FsDir) (name : Str) : Option Str :=
  match d.find? (fun e => e.name = name) with
  | some e => if e.isDir then none else some e.content
  | none => none

/-- Model of `os.WriteFile`: overwrite an existing entry or append a new
one. -/
def writeFile (d : FsDir) (name content : Str) : FsDir :=
  if d.any (fun e => e.name = name) then
    d.map (fun e => if e.name = name then { name := name, isDir := false, content := content } else e)
  else d ++ [{ name := name, isDir := false, content := content }]

/-- The frontmatter block `SaveDocument` prepends (exact bytes of the Go
format string; `ts` stands for the RFC3339 timestamp of `time.Now()`). -/
def frontmatterFor (id fn ts : Str) (t : DocumentType) : Str :=
  "---\nid: ".data ++ id ++ "\noriginal_filename: ".data ++ fn ++
    "\ningested_at: ".data ++ ts ++ "\ntype: ".data ++ t.str ++ "\n---\n\n".data

/-- The URI `<kind>://<id>`. -/
def uriOf (t : DocumentType) (id : Str) : Str := t.str ++ "://".data ++ id

/-- The extension choice of `SaveDocument`: the original filename's
extension, or `.md` when it has none. -/
def chooseExt (fn : Str) : Str := if extOf fn = [] then ".md".data else extOf fn

/-- `manager.go` `SaveDocument`: compute the ID, pick the extension
(default `.md`), skip writing when the target exists (dedup), otherwise
write frontmatter + content.  Returns the URI and the new store. -/
def saveDocument (st : Store) (t : DocumentType) (content fn ts : Str) : Str × Store :=
  let id := generateID content
  let filename := id ++ chooseExt fn
  let dir := st.dir t
  if statFile dir filename then (uriOf t id, st)
  else (uriOf t id, st.setDir t (writeFile dir filename (frontmatterFor id fn ts t ++ content)))

/-- `manager.go` `ParseURI`: the scheme is the first five characters;
anything but `cv://` / `jd://`, or a URI shorter than six characters, is an
error (`none`). -/
def parseURI (uri : Str) : Option (DocumentType × Str) :=
  if uri.length < 6 then none
  else if uri.take 5 = "cv://".data then some (.cv, uri.drop 5)
  else if uri.take 5 = "jd://".data then some (.jd, uri.drop 5)
  else none

/-- Result of code that can hit a Go runtime panic. -/
inductive PanicOr (α : Type) where
  | panicked
  | ok (val : α)
deriving DecidableEq

/-- The directory scan of `GetDocumentPath`: for each non-directory entry
with a non-empty extension, Go slices `entry.Name()[:len(id)]` — which
panics when the name is shorter than the ID — and then compares the slice
with the ID (both disjuncts of the Go condition reduce to the same prefix
test). -/
def findDocEntry (id : Str) : List FEntry → PanicOr (Option Str)
  | [] => .ok none
  | e :: rest =>
    if ¬ e.isDir ∧ extOf e.name ≠ [] then
      if e.name.length < id.length then .panicked
      else if e.name.take id.length = id ∨
          (e.name.length ≥ id.length ∧ e.name.take id.length = id) then
        .ok (some e.name)
      else findDocEntry id rest
    else findDocEntry id rest

/-- `manager.go` `GetDocumentPath` (inside one store): parse the URI, scan
the kind directory.  `ok none` covers both error returns (parse failure /
not found / unreadable directory is out of scope of this model). -/
def getDocumentPath (st : Store) (uri : Str) : PanicOr (Option (DocumentType × Str)) :=
  match parseURI uri with
  | none => .ok none
  | some (t, id) =>
    match findDocEntry id (st.dir t) with
    | .panicked => .panicked
    | .ok none => .ok none
    | .ok (some name) => .ok (some (t, name))

/-- `manager.go` `ReadDocument`: resolve the path, then read the full file
(frontmatter included). -/
def readDocument (st : Store) (uri : Str) : PanicOr (Option Str) :=
  match getDocumentPath st uri with
  | .panicked => .panicked
  | .ok none => .ok none
  | .ok (some (t, name)) => .ok (readFileD (st.dir t) name)

/-- `manager.go` `DocumentExists`: resolve the path, then `os.Stat` it. -/
def documentExists (st : Store) (uri : Str) : PanicOr Bool :=
  match getDocumentPath st uri with
  | .panicked => .panicked
  | .ok none => .ok false
  | .ok (some (t, name)) => .ok (statFile (st.dir t) name)

/-! ### TTL cleanup (`manager.go` `Cleanup`)

For the sweep only names, is-directory flags, modification times and the
success of `os.Remove` matter; a kind directory is a list of such entries,
or `none` when `os.ReadDir` fails.  Times are integers (nanoseconds). -/

/-- An entry as seen by the sweep: `info` is the result of `entry.Info()`
(`none` = error, `some m` = modification time `m`); `removeOk` tells
whether `os.Remove` would succeed on it. -/
structure CEntry where
  name : Str
  isDir : Bool
  info : Option Int
  removeOk : Bool

/-- The per-directory loop of `Cleanup`: skip directories, skip entries
whose `Info()` fails, remove entries modified strictly before the cutoff,
count the removals that succeed. -/
def cleanupDir (cutoff : Int) : List CEntry → Nat
  | [] => 0
  | e :: rest =>
    (if e.isDir then 0
     else match e.info with
       | none => 0
       | some m => if m < cutoff then (if e.removeOk then 1 else 0) else 0) +
      cleanupDir cutoff rest

/-- `manager.go` `Cleanup`: a zero TTL means the default TTL; an unreadable
kind directory is skipped (`continue`); the error result is always `nil`
(`none`). -/
def cleanup (defaultTTL now ttl : Int) (cvEntries jdEntries : Option (List CEntry)) :
    Nat × Option Unit :=
  let t := if ttl = 0 then defaultTTL else ttl
  let cutoff := now - t
  let countOf : Option (List CEntry) → Nat := fun d =>
    match d with
    | none => 0
    | some entries => cleanupDir cutoff entries
  (countOf cvEntries + countOf jdEntries, none)

/-! ## Frontmatter stripping (`internal/mcp/analyze_tool.go`)

Go applies the RE2 pattern `(?s)^---\n.*?\n---\n?` with
`ReplaceAllString(content, "")` and then `strings.TrimSpace`.  The pattern
is anchored at the start, the lazy `.*?` makes the match end at the first
occurrence of `"\n---"` after the opener, and the greedy `\n?` consumes one
following newline if present.  Only one replacement can ever happen
(`^` cannot match later). -/

/-- `analyze_tool.go` `stripFrontmatter`. -/
def stripFrontmatter (content : Str) : Str :=
  if startsWith content "---\n".data then
    match findSubIdx (content.drop 4) "\n---".data with
    | none => trimSpace content
    | some i =>
      let rest := content.drop (4 + i + 4)
      trimSpace (match rest with
        | '\n' :: r => r
        | r => r)
  else trimSpace content

/-! ## Input classification (`internal/converter/converter.go`) -/

/-- `converter.go` `InputType`. -/
inductive InputType where
  | file
  | url
  | text
deriving DecidableEq

/-- `converter.go` `ParseInput`, abstracted over `url.Parse` success
(`urlOk`) and `os.Stat` success (`statOk`): a `http(s)`-prefixed input that
parses is a URL; otherwise an input is a file exactly when `os.Stat`
succeeds; everything else is text. -/
def parseInput (urlOk statOk : Str → Bool) (input : Str) : InputType :=
  if (startsWith input "http://".data || startsWith input "https://".data) && urlOk input then
    .url
  else if statOk input then .file
  else .text

/-- `converter.go` `IsSupportedExtension`: the keys of the Go `supported`
map. -/
def supportedExts : List Str :=
  [".pdf", ".docx", ".doc", ".pptx", ".ppt", ".xlsx", ".xls", ".txt", ".md",
   ".html", ".htm"].map String.data

/-- `converter.go` `IsSupportedExtension`. -/
def isSupportedExtension (ext : Str) : Bool := supportedExts.contains (strToLower ext)

/-! ## Retry harness and conversion fallback
(`internal/ingest/retry.go`, `internal/ingest/errors.go`,
`internal/mcp/ingest_tool.go`)

The error universe mirrors the Go error types.  `mcpStorageE` stands for
the `StorageError` of package `mcp` — a *different Go type* from the
`StorageError` of package `ingest`, so `ingest.IsRetryable`'s type switch
does not match it and falls into the default branch, which follows its
`Unwrap` chain.  `osE` stands for opaque operating-system errors (whose
unwrap chains never reach one of the typed cases).  Timing (delays,
jitter) and context cancellation do not affect which value is returned, so
they are not modelled; the delay *configuration* is (see
`calculateDelay`). -/

/-- Go error values, by dynamic type, with their wrapped cause.  A `nil`
wrapped error is the constructor `noneE` (so that recursion over unwrap
chains is plainly structural). -/
inductive GoError where
  | storageE (op : Str) (wrapped : GoError)
  | mcpStorageE (op : Str) (wrapped : GoError)
  | conversionE (path hint : Str) (wrapped : GoError)
  | networkE (status : Int) (wrapped : GoError)
  | degradedE (component fallbackNote : Str) (wrapped : GoError)
  | retryableE (attempts : Nat) (wrapped : GoError)
  | validationE (tag reason : Str)
  | securityE (tag : Str)
  | osE (msg : Str)
  | noneE
deriving DecidableEq

/-- `errors.go` `IsRetryable` on a non-nil error: type switch on network /
storage / conversion / degraded errors; every other type is unwrapped if
it has an `Unwrap` method, else not retryable (`IsRetryable(nil)` is
false). -/
def isRetryableE : GoError → Bool
  | .networkE status _ => status ≥ 500 || status = 0
  | .storageE _ _ => true
  | .conversionE _ _ _ => false
  | .degradedE _ _ _ => false
  | .mcpStorageE _ w => isRetryableE w
  | .retryableE _ w => isRetryableE w
  | .validationE _ _ => false
  | .securityE _ => false
  | .osE _ => false
  | .noneE => false

/-- `errors.go` `IsRetryable`. -/
def isRetryable : Option GoError → Bool
  | none => false
  | some e => isRetryableE e

/-- `errors.go` `IsDegraded`: a plain type assertion, no unwrapping. -/
def isDegraded : GoError → Bool
  | .degradedE _ _ _ => true
  | _ => false

/-- Backoff strategies of `retry.go`. -/
inductive BackoffKind where
  | exponential
  | linear
  | fixed
deriving DecidableEq

/-- `retry.go` `calculateDelay` (durations in nanoseconds). -/
def calculateDelay (backoff : BackoffKind) (baseDelay maxDelay : Int) (attempt : Nat) : Int :=
  let delay : Int :=
    match backoff with
    | .exponential => baseDelay * 2 ^ (attempt - 1)
    | .linear => baseDelay * attempt
    | .fixed => baseDelay
  if delay > maxDelay then maxDelay else delay

/-- The loop of `retry.go` `Retry`.  `fn attempt` returns the error of call
number `attempt` together with the values the Go closure wrote into its
captured variables (`σ`).  The fuel equals the remaining attempts.  When
the attempts are exhausted the last error is wrapped in a
`RetryableError`. -/
def retryLoop {σ : Type} (fn : Nat → Option GoError × σ) (maxAttempts : Nat) :
    Nat → Nat → GoError → σ → Option GoError × σ
  | 0, _, lastErr, s => (some (.retryableE maxAttempts lastErr), s)
  | fuel + 1, attempt, _, _ =>
    match fn attempt with
    | (none, s') => (none, s')
    | (some err, s') =>
      if ¬ isRetryableE err then (some err, s')
      else if attempt ≥ maxAttempts then (some (.retryableE maxAttempts err), s')
      else retryLoop fn maxAttempts fuel (attempt + 1) err s'

/-- `retry.go` `Retry` (with captured-variable state `σ`, initial value
`init`; the initial `lastErr` is Go `nil`). -/
def retryGo {σ : Type} (maxAttempts : Nat) (init : σ) (fn : Nat → Option GoError × σ) :
    Option GoError × σ :=
  retryLoop fn maxAttempts maxAttempts 1 .noneE init

/-- The closure of `retry.go` `RetryConversionOperation`: every failure is
returned as a `ConversionError` — a pre-existing one gets the attempt
appended to its hint, anything else is wrapped. -/
def wrapConversion (path : Str) (attempt : Nat) : GoError → GoError
  | .conversionE p h w =>
    .conversionE p (h ++ " (attempt ".data ++ natToStr attempt ++ ")".data) w
  | e =>
    .conversionE path ("conversion failed on attempt ".data ++ natToStr attempt) e

/-- `retry.go` `RetryConversionOperation`: two attempts, 500 ms base delay,
exponential backoff — and every error wrapped as a (non-retryable)
`ConversionError`.  `op` is the underlying conversion (content in the
captured variable). -/
def retryConversionOperation (path : Str) (op : Nat → Option GoError × Str) :
    Option GoError × Str :=
  retryGo 2 [] (fun attempt =>
    match op attempt with
    | (none, s) => (none, s)
    | (some e, s) => (some (wrapConversion path attempt e), s))

/-- `ingest_tool.go` `readLocalFileWithFallback`: up to three attempts of
`os.ReadFile`, each failure wrapped as an `mcp.StorageError`. -/
def readLocalFileWithFallback (path : Str) (readOp : Nat → Option GoError × Str) :
    Option GoError × Str :=
  let r := retryGo 3 [] (fun attempt =>
    match readOp attempt with
    | (none, s) => (none, s)
    | (some e, s) =>
      (some (.mcpStorageE ("read file (attempt ".data ++ natToStr attempt ++ ")".data) e), s))
  match r with
  | (some e, _) => (some e, [])
  | (none, s) => (none, s)

/-- `ingest_tool.go` `getMarkdownContentWithRetry`.  `supports` is
`documentConverter != nil && Supports(path)`; `convertOp` / `readOp` are
the call sequences of `Convert` and `os.ReadFile`.  Returns `(content,
error)` exactly as the Go function does — in particular a *successful*
fallback still carries a `DegradedError`. -/
def getMarkdownContentWithRetry (itype : InputType) (supports : Bool) (path : Str)
    (convertOp readOp : Nat → Option GoError × Str) : Str × Option GoError :=
  match itype with
  | .url | .file =>
    if supports then
      match retryConversionOperation path convertOp with
      | (none, content) => (content, none)
      | (some _, _) =>
        match readLocalFileWithFallback path readOp with
        | (some re, _) =>
          ([], some (.degradedE "converter".data "direct file read also failed".data re))
        | (none, content) =>
          (content, some (.degradedE "converter".data "read as markdown".data
            (.osE "primary conversion failed".data)))
    else
      match readLocalFileWithFallback path readOp with
      | (some re, _) =>
        ([], some (.conversionE path "no converter available and direct read failed".data re))
      | (none, content) => (content, none)
  | .text => (path, none)

/-- `ingest_tool.go` `processDocumentWithRetry` stops at any non-nil error
from `getMarkdownContentWithRetry` (so nothing is saved then), and
`ingest_tool.go` `Call` turns a `DegradedError` into a successful tool
response.  This function returns whether `Call` reports the request as
failed. -/
def ingestCallFails (gmcErr : Option GoError) : Bool :=
  match gmcErr with
  | none => false
  | some e => ¬ isDegraded e

/-! ## Matching engine
(`internal/analysis/engine.go`, the scoring file and the skill-extraction
file)

Weights are exact rationals (model of `float64`).  A Go
`map[string]float64` is modelled as the association list of its entries *in
iteration order* (`TermMap`); Go randomises that order, so facts that hold
for every list hold for every possible run.  The bleve index is a
third-party black box: the pair of per-document term-weight maps it yields
for the two indexed documents is the parameter `extract` of `analyze`. -/

/-- A Go `map[string]float64` snapshot in iteration order. -/
abbrev TermMap := List (Str × ℚ)

/-- A skills dictionary: normalised skill name to category
(`SkillsDictionary.skillIndex`). -/
abbrev Dict := List (Str × Str)

/-- `engine.go` `preprocessText`: lowercase, trim, collapse whitespace
runs to single spaces. -/
def preprocessText (text : Str) : Str :=
  List.intercalate (' ' :: []) (fields (trimSpace (strToLower text)))

/-- The delimiter set of `tokenizeContent`. -/
def delimChars : List Char :=
  [',', ';', '.', ':', '(', ')', '[', ']', '{', '}', ' ', '\n', '\t']

/-- The stop-word list of `tokenizeContent` (`noiseWords`). -/
def noiseWords : List Str :=
  (["the", "and", "with", "for", "to", "in", "on", "of", "a", "an", "is",
    "are", "was", "were", "be", "been", "have", "has", "had", "do", "does",
    "did", "will", "would", "could", "should", "may", "might", "must",
    "can", "about", "from", "by", "as", "at", "that", "this", "it", "its",
    "their", "them", "they", "we", "our", "you", "your", "he", "she",
    "his", "her", "i", "me", "my", "or"]).map String.data

/-- `tokenizeContent`: lowercase, replace delimiters by spaces, split into
fields, keep words of length ≥ 2 that are not stop words. -/
def tokenizeContent (content : Str) : List Str :=
  let c := (strToLower content).map (fun ch => if delimChars.contains ch then ' ' else ch)
  (fields c).filter (fun w => w.length ≥ 2 && ¬ noiseWords.contains w)

/-- `SkillsDictionary.FindSkill`: lowercase and trim the query, look it up
in the index. -/
def findSkill (dict : Dict) (skillName : Str) : Option Str :=
  List.lookup (strToLower (trimSpace skillName)) dict

/-- The eight context phrases of `calculateConfidence`. -/
def contextPhrases : List Str :=
  (["experience with", "proficient in", "skilled in", "knowledge of",
    "worked with", "built using", "developed with", "implemented using"]).map String.data

/-- `calculateConfidence`: 0.5 base, +0.1 per occurrence, +0.2 per context
phrase immediately preceding the skill, capped at 1. -/
def calculateConfidence (skill content : Str) : ℚ :=
  let base : ℚ := 1 / 2
  let cnt := countSub content skill
  let base := if cnt > 0 then base + cnt * (1 / 10) else base
  let base := base +
    ((contextPhrases.filter (fun c => containsSub content (c ++ ' ' :: skill))).length : ℚ) * (1 / 5)
  if base > 1 then 1 else base

/-- `parseInt` of the skill-extraction file: the value of the first digit
run, 0 when there is none. -/
def parseIntGo (s : Str) : Nat :=
  (((s.dropWhile (fun c => ¬ c.isDigit)).takeWhile Char.isDigit).foldl
    (fun acc c => acc * 10 + (c.toNat - 48)) 0)

/-- The window scan of `extractExperience` at a position `i` where the
skill occurs: first positive integer among the five words before, then
among the four words after. -/
def expAtPos (words : List Str) (i : Nat) : Option Nat :=
  let start := i - 5
  match ((List.range' start (i - start)).map (fun k => parseIntGo (words.getD k []))).find?
      (fun y => y > 0) with
  | some y => some y
  | none =>
    let e := min (i + 5) words.length
    ((List.range' (i + 1) (e - (i + 1))).map (fun j => parseIntGo (words.getD j []))).find?
      (fun y => y > 0)

/-- The per-line scan of `extractExperience`: only lines containing the
skill and the substring `"year"` are inspected. -/
def expInLine (skill line : Str) : Option Nat :=
  if containsSub line skill ∧ containsSub line "year".data then
    (((List.range (fields line).length).filterMap (fun i =>
      if (fields line).getD i [] = skill then expAtPos (fields line) i else none)).head?)
  else none

/-- `extractExperience`: first hit over the lines of the content. -/
def extractExperience (skill content : Str) : Nat :=
  ((((splitOnChar '\n' content).filterMap (expInLine skill)).head?).getD 0)

/-- A detected skill (`analysis.Skill`). -/
structure Skill where
  name : Str
  category : Str
  experience : Nat
  confidence : ℚ
deriving DecidableEq

/-- The word loop of `ExtractSkills`: dictionary hits, deduplicated by the
`seen` set. -/
def extractSkillsLoop (dict : Dict) (content : Str) : List Str → List Str → List Skill
  | _, [] => []
  | seen, w :: ws =>
    match findSkill dict w with
    | some cat =>
      if seen.contains w then extractSkillsLoop dict content seen ws
      else
        { name := w, category := cat, experience := extractExperience w content,
          confidence := calculateConfidence w content } ::
          extractSkillsLoop dict content (w :: seen) ws
    | none => extractSkillsLoop dict content seen ws

/-- Go string comparison (bytewise lexicographic). -/
def strLess : Str → Str → Bool
  | [], [] => false
  | [], _ :: _ => true
  | _ :: _, [] => false
  | a :: as, b :: bs => if a < b then true else if b < a then false else strLess as bs

/-- The comparator of the `sort.Slice` call in `ExtractSkills`: descending
confidence, ties by ascending name.  On the duplicate-free skill list this
is a strict total order, so the (unstable) Go sort has a unique result and
an insertion sort computes it. -/
def skillLess (a b : Skill) : Bool :=
  if a.confidence = b.confidence then strLess a.name b.name
  else decide (a.confidence > b.confidence)

/-- Insertion into a list sorted by `skillLess`. -/
def insertSkill (x : Skill) : List Skill → List Skill
  | [] => [x]
  | y :: ys => if skillLess x y then x :: y :: ys else y :: insertSkill x ys

/-- Sorting by `skillLess`. -/
def sortSkills (l : List Skill) : List Skill := l.foldr insertSkill []

/-- `ExtractSkills` (with the dictionary as a parameter). -/
def extractSkills (content : Str) (dict : Dict) : List Skill :=
  let c := strToLower content
  sortSkills (extractSkillsLoop dict c [] (tokenizeContent c))

/-- `MatchSkills`: for every JD skill found (by name) among the CV skills a
match with the CV experience and averaged confidence; the others are
missing.  (The Go function returns a third, always-empty list.)  The Go
`cvIndex` map keeps the *last* CV skill of a given name, hence the
`reverse`. -/
def matchSkills (cvSkills jdSkills : List Skill) : List Skill × List Skill :=
  let cvIndex := (cvSkills.map (fun s => (s.name, s))).reverse
  let found := jdSkills.filterMap (fun j =>
    match List.lookup j.name cvIndex with
    | some c =>
      some { name := j.name, category := j.category, experience := c.experience,
             confidence := (c.confidence + j.confidence) / 2 }
    | none => none)
  let absent := jdSkills.filter (fun j => (List.lookup j.name cvIndex).isNone)
  (found, absent)

/-- `CalculateSkillCoverage`: matched fraction of the JD skills, 0 when the
JD has none. -/
def calculateSkillCoverage (cvSkills jdSkills : List Skill) : ℚ :=
  if jdSkills.length = 0 then 0
  else ((matchSkills cvSkills jdSkills).1.length : ℚ) / (jdSkills.length : ℚ)

/-- One JD skill's contribution in `CalculateExperienceMatch` (`m` is the
matched skill, whose experience is the CV experience). -/
def expContribution (j m : Skill) : ℚ :=
  if j.experience > 0 then
    if m.experience ≥ j.experience then 1
    else if m.experience > 0 then (m.experience : ℚ) / (j.experience : ℚ)
    else 0
  else if m.experience > 0 then 4 / 5
  else 1 / 2

/-- `CalculateExperienceMatch`. -/
def calculateExperienceMatch (cvSkills jdSkills : List Skill) : ℚ :=
  if jdSkills.length = 0 then 0
  else
    let found := (matchSkills cvSkills jdSkills).1
    if found.length = 0 then 0
    else
      let contribs := jdSkills.filterMap (fun j =>
        (found.find? (fun m => m.name = j.name)).map (fun m => expContribution j m))
      if contribs.length = 0 then 0 else contribs.sum / (contribs.length : ℚ)

/-- `ScoringWeights` (scoring file). -/
structure ScoringWeights where
  skillCoverage : ℚ
  experience : ℚ
  termSimilarity : ℚ
  overallMatch : ℚ
deriving DecidableEq

/-- `NewDefaultWeights`: 0.40 / 0.30 / 0.20 / 0.10. -/
def defaultWeights : ScoringWeights :=
  { skillCoverage := 2 / 5, experience := 3 / 10, termSimilarity := 1 / 5,
    overallMatch := 1 / 10 }

/-- `ScoringWeights.Normalize`. -/
def normalizeWeights (w : ScoringWeights) : ScoringWeights :=
  let s := w.skillCoverage + w.experience + w.termSimilarity + w.overallMatch
  if s = 0 then defaultWeights
  else
    { skillCoverage := w.skillCoverage / s, experience := w.experience / s,
      termSimilarity := w.termSimilarity / s, overallMatch := w.overallMatch / s }

/-- `clampFloat64`. -/
def clampQ (v lo hi : ℚ) : ℚ := if v < lo then lo else if v > hi then hi else v

/-- Go's `int(x)` conversion on a finite float: truncation toward zero. -/
def truncQ (q : ℚ) : Int := Int.sign q.num * ((q.num.natAbs / q.den : Nat) : Int)

/-- `ScoreBreakdown`. -/
structure ScoreBreakdown where
  skillCoverage : ℚ
  experience : ℚ
  termSimilarity : ℚ
  overallMatch : ℚ
  weightedTotal : Int
deriving DecidableEq

/-- `CalculateWeightedScore`: normalise the weights, clamp the inputs to
[0,1], form the weighted total, scale to 0–100, truncate and clamp. -/
def calculateWeightedScore (sc em ts om : ℚ) (w : ScoringWeights) :
    Int × ScoreBreakdown :=
  let n := normalizeWeights w
  let sc := clampQ sc 0 1
  let em := clampQ em 0 1
  let ts := clampQ ts 0 1
  let om := clampQ om 0 1
  let total := sc * n.skillCoverage + em * n.experience + ts * n.termSimilarity +
    om * n.overallMatch
  let score := truncQ (total * 100)
  let score := if score < 0 then 0 else score
  let score := if score > 100 then 100 else score
  (score, { skillCoverage := sc, experience := em, termSimilarity := ts,
            overallMatch := om, weightedTotal := score })

/-- Structured analysis output (`AnalysisResult`). -/
structure AnalysisResultM where
  matchPercentage : Int
  weightedScore : Int
  skillCoverage : ℚ
  experienceMatch : ℚ
  topSkills : List Str
  missingSkills : List Str
  presentSkills : List Str
  commonTerms : TermMap
  breakdown : Option ScoreBreakdown
deriving DecidableEq

/-- The common-term map built by `calculateMatchMetrics`: JD terms also
present in the CV, with the minimum of the two weights. -/
def commonTermsOf (cvTerms jdTerms : TermMap) : TermMap :=
  jdTerms.filterMap (fun p =>
    match List.lookup p.1 cvTerms with
    | some cw => some (p.1, min cw p.2)
    | none => none)

/-- The missing-term list built by `calculateMatchMetrics`: JD terms not in
the CV. -/
def missingOf (cvTerms jdTerms : TermMap) : List Str :=
  jdTerms.filterMap (fun p =>
    if (List.lookup p.1 cvTerms).isSome then none else some p.1)

/-- The inner loop of `getTopTerms`: scan the tail with the current
occupant of slot `i`; a strictly greater score swaps, leaving the old
occupant at the scanned position. -/
def selOnce (cur : Str × ℚ) : TermMap → (Str × ℚ) × TermMap
  | [] => (cur, [])
  | x :: xs =>
    if x.2 > cur.2 then
      let r := selOnce x xs
      (r.1, cur :: r.2)
    else
      let r := selOnce cur xs
      (r.1, x :: r.2)

/-- The outer loop of `getTopTerms` (fuel = list length). -/
def selSortFuel : Nat → TermMap → TermMap
  | 0, l => l
  | _ + 1, [] => []
  | fuel + 1, x :: xs =>
    let r := selOnce x xs
    r.1 :: selSortFuel fuel r.2

/-- The double swap loop of `getTopTerms` / `getMissingSkills` /
`getTermScores`, as a function of the map-iteration order. -/
def selSortTerms (l : TermMap) : TermMap := selSortFuel l.length l

/-- `getTopTerms`: sort by the swap loop, take the first `limit`. -/
def getTopTerms (terms : TermMap) (limit : Nat) : List Str :=
  ((selSortTerms terms).take (min limit terms.length)).map Prod.fst

/-- `getMissingSkills`: score the missing terms by their JD weight, sort by
the swap loop, take the first `limit`. -/
def getMissingSkills (jdTerms : TermMap) (missing : List Str) (limit : Nat) : List Str :=
  let scores := missing.filterMap (fun t => (List.lookup t jdTerms).map (fun s => (t, s)))
  ((selSortTerms scores).take (min limit scores.length)).map Prod.fst

/-- `getTermScores`. -/
def getTermScores (terms : TermMap) (limit : Nat) : TermMap :=
  let sorted := selSortTerms terms
  if limit < sorted.length then sorted.take limit else sorted

/-- `calculateMatchMetrics`: totals over the JD map, match percentage from
the common weight (Go `int(...)` truncation, then clamping), top/missing
lists. -/
def calculateMatchMetrics (cvTerms jdTerms : TermMap) : AnalysisResultM :=
  let common := commonTermsOf cvTerms jdTerms
  let missing := missingOf cvTerms jdTerms
  let total := (jdTerms.map Prod.snd).sum
  let cov : ℚ := if jdTerms.length = 0 then 0 else (common.length : ℚ) / (jdTerms.length : ℚ)
  let ms := (common.map Prod.snd).sum
  let mp : Int := if total > 0 then truncQ (ms / total * 100) else 0
  let mp := if mp > 100 then 100 else mp
  let mp := if mp < 0 then 0 else mp
  { matchPercentage := mp, weightedScore := 0, skillCoverage := cov, experienceMatch := 0,
    topSkills := getTopTerms common 10,
    missingSkills := getMissingSkills jdTerms missing 20,
    presentSkills := [], commonTerms := getTermScores common 15, breakdown := none }

/-- `engine.go` `Analyze`.  `extract` models
`extractTermFrequenciesFromIndex` over the bleve index holding *both*
cleaned documents (first component: the `"cv"` document's map, second: the
`"jd"` document's map, each in iteration order).  Empty-after-normalisation
input is the validation error (`none`). -/
def analyze (extract : Str → Str → TermMap × TermMap) (dict : Dict)
    (cvContent jdContent : Str) : Option AnalysisResultM :=
  let cvClean := preprocessText cvContent
  let jdClean := preprocessText jdContent
  if cvClean = [] ∨ jdClean = [] then none
  else
    let tm := extract cvClean jdClean
    let cvSkills := extractSkills cvClean dict
    let jdSkills := extractSkills jdClean dict
    let result := calculateMatchMetrics tm.1 tm.2
    let skillCoverage := calculateSkillCoverage cvSkills jdSkills
    let experienceMatch := calculateExperienceMatch cvSkills jdSkills
    let termSimilarity : ℚ := if tm.2.length > 0 then (result.matchPercentage : ℚ) / 100 else 0
    let overallMatch : ℚ := (result.matchPercentage : ℚ) / 100
    let wsb := calculateWeightedScore skillCoverage experienceMatch termSimilarity
      overallMatch defaultWeights
    some { result with
      weightedScore := wsb.1, experienceMatch := experienceMatch,
      skillCoverage := skillCoverage, breakdown := some wsb.2,
      presentSkills := cvSkills.map (fun s => s.name) }

/-- A simple concrete stand-in for the bleve term extraction, used to
instantiate `analyze` at concrete inputs: every distinct whitespace field
of a document gets weight 1 (symmetric and positive, like the real
index). -/
def unitTermMap (s : Str) : TermMap := (fields s).dedup.map (fun w => (w, 1))

/-- The pair of term maps `analyze` receives from `unitTermMap`. -/
def extractUnit : Str → Str → TermMap × TermMap :=
  fun c j => (unitTermMap c, unitTermMap j)

/-- A one-entry dictionary holding the `golang` line of
`skills_dictionary.txt`. -/
def dictGolang : Dict := [("golang".data, "Programming Languages".data)]

/-- Spec-side description of the sweep on one kind directory (the spec's
words): the number of non-directory entries with a known modification time
strictly before the cutoff whose removal succeeds; an unreadable directory
contributes nothing. -/
def specSweepCount (cutoff : Int) : Option (List CEntry) → Nat
  | none => 0
  | some entries =>
    entries.countP (fun e =>
      !e.isDir &&
        (match e.info with
          | some m => decide (m < cutoff)
          | none => false) &&
        e.removeOk)

/-- Spec-side match percentage (the spec's words): `round(100 · Σ
common_weight / Σ jd_weight)` clamped to [0,100], and 0 when `Σ jd_weight
= 0`, with the common weight of a shared term being the minimum of its two
weights. -/
def specMatchPercentage (cvTerms jdTerms : TermMap) : Int :=
  let total := (jdTerms.map Prod.snd).sum
  let common := (jdTerms.map (fun p =>
    match List.lookup p.1 cvTerms with
    | some cw => min cw p.2
    | none => 0)).sum
  if total = 0 then 0 else max 0 (min 100 (round (100 * common / total)))

/-- A character is a lowercase hexadecimal digit. -/
def isHexLowerChar (c : Char) : Prop :=
  (48 ≤ c.toNat ∧ c.toNat ≤ 57) ∨ (97 ≤ c.toNat ∧ c.toNat ≤ 102)

instance (c : Char) : Decidable (isHexLowerChar c) := by
  unfold isHexLowerChar
  infer_instance

/-! # Claims -/

/-- Known-answer check: SHA-1 of `"abc"`. -/
theorem sha1_abc :
    sha1 (strBytes ('a' :: 'b' :: 'c' :: [])) =
      [169, 153, 62, 54, 71, 6, 129, 106, 186, 62, 37, 113, 120, 80, 194, 108,
       156, 208, 216, 157] := by decide

/-- Known-answer check: the document ID of the bytes `"hello"` (matches
`uuid.NewSHA1(uuid.MustParse("6ba7b810-..."), sha1("hello"))` in Go). -/
theorem generateID_hello :
    generateID ("hello".data) = ("f75e772e-bc27-5711-a5c6-29b6c237d963".data) := by
  decide


/-! ## C8 — `DocumentExists` can panic

`GetDocumentPath` slices `entry.Name()[:len(id)]` *before* checking that
the name is at least as long as the ID (the length guard sits in the
second disjunct, after the slice), so a stored file whose name is shorter
than the URI's ID makes the Go runtime panic with a slice-bounds error. -/

/-- C8: `DocumentExists` does *not* always return a boolean: with the cv
directory holding a file named `a.md` and a URI whose ID is 36 characters
long, the directory scan panics (slice bounds out of range), contradicting
the claim that it never panics. -/
theorem C8_documentExists_panics :
    documentExists
      { cvDir := [{ name := "a.md".data, isDir := false, content := "body".data }], jdDir := [] }
      ("cv://0123456789abcdef0123456789abcdef0123".data) = .panicked := by decide

/-! ## C10 — the TTL sweep -/

/-- The per-directory loop counts exactly the spec-side set. -/
theorem cleanupDir_eq_countP (cutoff : Int) (l : List CEntry) :
    cleanupDir cutoff l = specSweepCount cutoff (some l) := by
  induction l with
  | nil => rfl
  | cons e rest ih =>
    simp only [cleanupDir, specSweepCount, List.countP_cons] at *
    rw [ih]
    cases hd : e.isDir <;> cases hi : e.info <;>
      simp only [Bool.false_and, Bool.true_and, Bool.and_false, Bool.and_true, Bool.not_false,
        Bool.not_true, Bool.false_and, if_true, if_false] <;>
      first
      | omega
      | (rename_i m
         by_cases hm : m < cutoff <;> cases hr : e.removeOk <;>
           simp [hm, hr, specSweepCount] <;> omega)
      | simp [specSweepCount]

/-- C10: `Cleanup` (with `ttl = 0` meaning the default TTL) returns the
number of non-directory entries of the two kind directories whose
modification time is strictly before `now − ttl` and whose removal
succeeds, and its error result is always `nil`: failed removals, entries
with failing `Info()`, and unreadable kind directories are skipped, never
aborting the sweep. -/
theorem C10_cleanup_exact (defaultTTL now ttl : Int)
    (cvEntries jdEntries : Option (List CEntry)) :
    cleanup defaultTTL now ttl cvEntries jdEntries =
      (specSweepCount (now - (if ttl = 0 then defaultTTL else ttl)) cvEntries +
        specSweepCount (now - (if ttl = 0 then defaultTTL else ttl)) jdEntries, none) := by
  unfold cleanup
  cases cvEntries <;> cases jdEntries <;>
    simp [specSweepCount, cleanupDir_eq_countP]

/-! ## C9 — input classification ignores extensions

`ParseInput` classifies an input as `File` exactly when `os.Stat`
succeeds; the recognised-extension set (`IsSupportedExtension`, which by
the way also contains `.ppt` and `.xls`) is never consulted, so a
non-existing path with a recognised extension is classified `Text`. -/

/-- C9 counterexample: the non-existing path `missing.pdf` (its extension
`.pdf` is in the recognised set) is classified `Text`, not `File` as the
claim states. -/
theorem C9_counterexample :
    parseInput (fun _ => true) (fun _ => false) ("missing.pdf".data) = .text ∧
    isSupportedExtension (extOf ("missing.pdf".data)) = true ∧
    InputType.text ≠ InputType.file := by
  refine ⟨by decide, by decide, by decide⟩

/-- C9 (amended): for a non-URL input, classification is `File` iff the
path exists on the filesystem and `Text` iff it does not; the extension
plays no role (and the recognised set also contains `.ppt` and `.xls`). -/
theorem C9_classification (urlOk statOk : Str → Bool) (input : Str)
    (h : ((startsWith input ("http://".data) || startsWith input ("https://".data)) &&
      urlOk input) = false) :
    (parseInput urlOk statOk input = .file ↔ statOk input = true) ∧
    (parseInput urlOk statOk input = .text ↔ statOk input = false) ∧
    isSupportedExtension (".pdf".data) = true ∧
    isSupportedExtension (".ppt".data) = true ∧
    isSupportedExtension (".xls".data) = true := by
  unfold parseInput
  rw [h]
  cases hs : statOk input <;> simp [hs] <;> decide

/-- C9 witness: the non-URL input `notes.txt` on an empty filesystem. -/
theorem C9_classification_witness :
    ((startsWith ("notes.txt".data) ("http://".data) ||
        startsWith ("notes.txt".data) ("https://".data)) && (fun (_ : Str) => false) ("notes.txt".data)) = false ∧
    (parseInput (fun _ => false) (fun _ => false) ("notes.txt".data) = .text ↔
      (fun (_ : Str) => false) ("notes.txt".data) = false) :=
  ⟨by decide, (C9_classification (fun _ => false) (fun _ => false) ("notes.txt".data) (by decide)).2.1⟩

/-! ## C6 — match percentage truncates instead of rounding -/

/-- C6 counterexample: with CV weights `{a ↦ 2}` and JD weights
`{a ↦ 2, b ↦ 1}` the ratio is 2/3, the code truncates `66.67` to 66 while
the claimed rounding yields 67. -/
theorem C6_counterexample :
    (calculateMatchMetrics [(['a'], 2)] [(['a'], 2), (['b'], 1)]).matchPercentage = 66 ∧
    specMatchPercentage [(['a'], 2)] [(['a'], 2), (['b'], 1)] = 67 ∧
    (66 : Int) ≠ 67 := by
  refine ⟨by decide, by decide, by decide⟩

/-- Common weight sum: the filterMap of `calculateMatchMetrics` sums to the
same value as the spec-side map-with-zero sum. -/
theorem commonSum_eq (cvTerms jdTerms : TermMap) :
    ((commonTermsOf cvTerms jdTerms).map Prod.snd).sum =
      (jdTerms.map (fun p =>
        match List.lookup p.1 cvTerms with
        | some cw => min cw p.2
        | none => 0)).sum := by
  induction jdTerms with
  | nil => rfl
  | cons p rest ih =>
    simp only [commonTermsOf, List.filterMap_cons, List.map_cons, List.sum_cons] at *
    cases h : List.lookup p.1 cvTerms <;> simp [h, ih, commonTermsOf]

/-- C6 (amended): the match percentage equals the *truncation toward zero*
(Go's `int(...)` conversion, not rounding) of `100 · Σ common / Σ jd`,
clamped to [0,100]; it is 0 whenever the JD weight sum is not positive; and
it always lies in [0,100]. -/
theorem C6_matchPercentage (cvTerms jdTerms : TermMap) :
    (calculateMatchMetrics cvTerms jdTerms).matchPercentage =
      (if 0 < (jdTerms.map Prod.snd).sum then
        max 0 (min 100 (truncQ (100 * (jdTerms.map (fun p =>
          match List.lookup p.1 cvTerms with
          | some cw => min cw p.2
          | none => 0)).sum / (jdTerms.map Prod.snd).sum)))
      else 0) ∧
    0 ≤ (calculateMatchMetrics cvTerms jdTerms).matchPercentage ∧
    (calculateMatchMetrics cvTerms jdTerms).matchPercentage ≤ 100 := by
  have hsum := commonSum_eq cvTerms jdTerms
  have hmain : (calculateMatchMetrics cvTerms jdTerms).matchPercentage =
      (if 0 < (jdTerms.map Prod.snd).sum then
        max 0 (min 100 (truncQ (100 * (jdTerms.map (fun p =>
          match List.lookup p.1 cvTerms with
          | some cw => min cw p.2
          | none => 0)).sum / (jdTerms.map Prod.snd).sum)))
      else 0) := by
    simp only [calculateMatchMetrics]
    rw [hsum]
    by_cases ht : 0 < (jdTerms.map Prod.snd).sum
    · have harg : ((jdTerms.map (fun p =>
          match List.lookup p.1 cvTerms with
          | some cw => min cw p.2
          | none => 0)).sum / (jdTerms.map Prod.snd).sum * 100) =
          (100 * (jdTerms.map (fun p =>
            match List.lookup p.1 cvTerms with
            | some cw => min cw p.2
            | none => 0)).sum / (jdTerms.map Prod.snd).sum) := by
        ring
      simp only [ht, if_true, harg]
      omega
    · simp [ht]
  refine ⟨hmain, ?_, ?_⟩ <;> rw [hmain] <;> by_cases ht : 0 < (jdTerms.map Prod.snd).sum <;>
    simp [ht] <;> omega

/-! ## C4 — conversion is attempted once, not twice

`RetryConversionOperation` is configured with two attempts and a 500 ms
base delay, but its closure wraps *every* failure as a `ConversionError`,
which `IsRetryable` classifies as non-retryable — so `Retry` returns after
the first failed attempt and the second attempt never happens.  The
pipeline then falls back to the raw read; both fallback outcomes are
reported as a `DegradedError`, which the tool layer maps to a successful
response. -/

/-- Whatever the underlying error, the conversion wrapper yields a
non-retryable error. -/
theorem isRetryable_wrapConversion (path : Str) (attempt : Nat) (e : GoError) :
    isRetryableE (wrapConversion path attempt e) = false := by
  cases e <;> simp [wrapConversion, isRetryableE]

/-- A conversion whose first call fails, but whose second call would
succeed, still fails as a whole: the second attempt promised by the claim
never runs. -/
theorem C4_counterexample :
    (retryConversionOperation ("doc.pdf".data)
        (fun attempt => if attempt = 1 then (some (.osE "parse failure".data), [])
          else (none, "converted".data))).1.isSome = true ∧
    (fun attempt => if attempt = 1 then (some (GoError.osE "parse failure".data), ([] : Str))
      else (none, "converted".data)) 2 = (none, "converted".data) := by
  exact ⟨by decide, rfl⟩

/-- C4 (amended): when the selected converter's first `Convert` call
fails, (i) the whole conversion step is determined by that first call
alone — no second attempt is made, although the policy says two attempts
with a 500 ms exponential base (last conjunct); (ii) the result is the
first error wrapped as a `ConversionError`; (iii) the pipeline falls back
to the raw byte-read; and (iv) whether or not that fallback succeeds the
pipeline yields a `DegradedError`, which the tool layer reports as
success — the request does not fail even when the fallback fails. -/
theorem C4_conversionSingleAttempt (path : Str) (convertOp readOp : Nat → Option GoError × Str)
    (e : GoError) (s : Str) (hc : convertOp 1 = (some e, s)) :
    (∀ op' : Nat → Option GoError × Str, op' 1 = convertOp 1 →
      retryConversionOperation path op' = retryConversionOperation path convertOp) ∧
    retryConversionOperation path convertOp = (some (wrapConversion path 1 e), s) ∧
    getMarkdownContentWithRetry .file true path convertOp readOp =
      (match readLocalFileWithFallback path readOp with
        | (some re, _) =>
          ([], some (.degradedE ("converter".data) ("direct file read also failed".data) re))
        | (none, c) =>
          (c, some (.degradedE ("converter".data) ("read as markdown".data)
            (.osE ("primary conversion failed".data))))) ∧
    ingestCallFails (getMarkdownContentWithRetry .file true path convertOp readOp).2 = false ∧
    calculateDelay .exponential 500000000 30000000000 1 = 500000000 := by
  have hfirst : ∀ op' : Nat → Option GoError × Str, op' 1 = (some e, s) →
      retryConversionOperation path op' = (some (wrapConversion path 1 e), s) := by
    intro op' h1
    simp [retryConversionOperation, retryGo, retryLoop, h1, isRetryable_wrapConversion]
  have hret := hfirst convertOp hc
  have hgmc : getMarkdownContentWithRetry .file true path convertOp readOp =
      (match readLocalFileWithFallback path readOp with
        | (some re, _) =>
          ([], some (.degradedE ("converter".data) ("direct file read also failed".data) re))
        | (none, c) =>
          (c, some (.degradedE ("converter".data) ("read as markdown".data)
            (.osE ("primary conversion failed".data))))) := by
    simp only [getMarkdownContentWithRetry, if_true, hret]
  refine ⟨?_, hret, hgmc, ?_, by decide⟩
  · intro op' h1
    rw [hfirst op' (h1.trans hc), hret]
  · rw [hgmc]
    rcases hr : readLocalFileWithFallback path readOp with ⟨re, c⟩
    cases re <;> simp [ingestCallFails, isDegraded]

/-- C4 witness: a conversion failing on its first call, at concrete
inputs. -/
theorem C4_conversionSingleAttempt_witness :
    (fun (a : Nat) => if a = 1 then (some (GoError.osE "boom".data), ([] : Str))
      else (none, "ok".data)) 1 = (some (GoError.osE "boom".data), ([] : Str)) ∧
    retryConversionOperation ("f.pdf".data)
      (fun a => if a = 1 then (some (GoError.osE "boom".data), ([] : Str))
        else (none, "ok".data)) =
      (some (wrapConversion ("f.pdf".data) 1 (GoError.osE "boom".data)), ([] : Str)) :=
  ⟨rfl, (C4_conversionSingleAttempt ("f.pdf".data)
    (fun a => if a = 1 then (some (GoError.osE "boom".data), ([] : Str)) else (none, "ok".data))
    (fun _ => (none, [])) (GoError.osE "boom".data) [] rfl).2.1⟩

/-! ## C3 — dedup holds only per extension

`SaveDocument` dedups on the target *filename* `<id><ext>`; the URI never
contains the extension, so two saves of the same bytes always return the
same URI, but saves under original filenames with different extensions
write two files. -/

/-- C3 counterexample: saving the same bytes as `a.md` and then `a.txt`
returns the same URI twice but leaves two files in the cv directory. -/
theorem C3_counterexample :
    (saveDocument { cvDir := [], jdDir := [] } .cv ("hello".data) ("a.md".data) ("t1".data)).1 =
      (saveDocument (saveDocument { cvDir := [], jdDir := [] } .cv ("hello".data) ("a.md".data)
        ("t1".data)).2 .cv ("hello".data) ("a.txt".data) ("t2".data)).1 ∧
    ((saveDocument (saveDocument { cvDir := [], jdDir := [] } .cv ("hello".data) ("a.md".data)
        ("t1".data)).2 .cv ("hello".data) ("a.txt".data) ("t2".data)).2.dir .cv).length = 2 ∧
    (2 : Nat) ≠ 1 := by
  refine ⟨by decide, by decide, by decide⟩

/-- A freshly written file is seen by `os.Stat`. -/
theorem statFile_writeFile (d : FsDir) (n c : Str) : statFile (writeFile d n c) n = true := by
  unfold statFile writeFile
  by_cases h : d.any (fun e => e.name = n) = true
  · rw [if_pos h, List.any_eq_true]
    rw [List.any_eq_true] at h
    obtain ⟨e, he, hn⟩ := h
    simp only [decide_eq_true_eq] at hn
    refine ⟨{ name := n, isDir := false, content := c }, ?_, by simp⟩
    exact List.mem_map.mpr ⟨e, he, by rw [if_pos hn]⟩
  · rw [if_neg h, List.any_eq_true]
    exact ⟨{ name := n, isDir := false, content := c }, by simp, by simp⟩

/-- Selecting the directory just written. -/
theorem Store.dir_setDir (st : Store) (t : DocumentType) (d : FsDir) :
    (st.setDir t d).dir t = d := by
  cases t <;> rfl

/-- The URI returned by a save, in both branches. -/
theorem saveDocument_fst (st : Store) (t : DocumentType) (content fn ts : Str) :
    (saveDocument st t content fn ts).1 = uriOf t (generateID content) := by
  simp only [saveDocument]
  split <;> rfl

/-- A save whose target exists leaves the store untouched. -/
theorem saveDocument_snd_pos (st : Store) (t : DocumentType) (content fn ts : Str)
    (hstat : statFile (st.dir t) (generateID content ++ chooseExt fn) = true) :
    (saveDocument st t content fn ts).2 = st := by
  simp only [saveDocument]
  rw [if_pos hstat]

/-- A save whose target does not exist writes frontmatter + content. -/
theorem saveDocument_snd_neg (st : Store) (t : DocumentType) (content fn ts : Str)
    (hstat : ¬ statFile (st.dir t) (generateID content ++ chooseExt fn) = true) :
    (saveDocument st t content fn ts).2 =
      st.setDir t (writeFile (st.dir t) (generateID content ++ chooseExt fn)
        (frontmatterFor (generateID content) fn ts t ++ content)) := by
  simp only [saveDocument]
  rw [if_neg hstat]

/-- C3 (amended): two saves of the same bytes always return the same URI,
and when the two original filenames carry the same extension (after the
`.md` default) the second save leaves the store untouched — in particular a
first save into an empty kind directory leaves exactly one file.  (With
*different* extensions the second save writes a second file, see the
counterexample.) -/
theorem C3_dedup (st : Store) (t : DocumentType) (content fn1 fn2 ts1 ts2 : Str)
    (h : chooseExt fn1 = chooseExt fn2) :
    (saveDocument (saveDocument st t content fn1 ts1).2 t content fn2 ts2).1 =
      (saveDocument st t content fn1 ts1).1 ∧
    (saveDocument (saveDocument st t content fn1 ts1).2 t content fn2 ts2).2 =
      (saveDocument st t content fn1 ts1).2 ∧
    (st.dir t = [] → ((saveDocument st t content fn1 ts1).2.dir t).length = 1) := by
  refine ⟨by rw [saveDocument_fst, saveDocument_fst], ?_, ?_⟩
  · by_cases hstat : statFile (st.dir t) (generateID content ++ chooseExt fn1) = true
    · rw [saveDocument_snd_pos st t content fn1 ts1 hstat,
        saveDocument_snd_pos st t content fn2 ts2 (by rw [← h]; exact hstat)]
    · rw [saveDocument_snd_neg st t content fn1 ts1 hstat]
      apply saveDocument_snd_pos
      rw [Store.dir_setDir, ← h]
      exact statFile_writeFile _ _ _
  · intro hdir
    have hstat : ¬ statFile (st.dir t) (generateID content ++ chooseExt fn1) = true := by
      rw [hdir]
      simp [statFile]
    rw [saveDocument_snd_neg st t content fn1 ts1 hstat, Store.dir_setDir, hdir]
    rfl

/-- C3 witness: same bytes saved as `a.md` then `b.md` on a fresh store. -/
theorem C3_dedup_witness :
    chooseExt ("a.md".data) = chooseExt ("b.md".data) ∧
    (saveDocument (saveDocument { cvDir := [], jdDir := [] } .cv ("hi".data) ("a.md".data)
        ("t1".data)).2 .cv ("hi".data) ("b.md".data) ("t2".data)).2 =
      (saveDocument { cvDir := [], jdDir := [] } .cv ("hi".data) ("a.md".data) ("t1".data)).2 :=
  ⟨by decide, (C3_dedup { cvDir := [], jdDir := [] } .cv ("hi".data) ("a.md".data) ("b.md".data)
    ("t1".data) ("t2".data) (by decide)).2.1⟩

/-! ## C1 — the document ID is a UUID v5, not a SHA-256 hex

`GenerateID` feeds the SHA-1 of the content into `uuid.NewSHA1` (UUID v5)
and renders the usual 36-character `8-4-4-4-12` string — not the
64-character lowercase hex SHA-256 the claim states. -/

/-- `beBytes` produces exactly `k` bytes. -/
theorem beBytes_length (k n : Nat) : (beBytes k n).length = k := by
  induction k generalizing n with
  | zero => rfl
  | succ k ih => simp [beBytes, ih]

/-- `beBytes` produces values below 256. -/
theorem beBytes_lt (k n : Nat) : ∀ b ∈ beBytes k n, b < 256 := by
  induction k generalizing n with
  | zero => simp [beBytes]
  | succ k ih =>
    intro b hb
    simp only [beBytes, List.mem_append, List.mem_singleton] at hb
    rcases hb with h | h
    · exact ih _ _ h
    · subst h; exact Nat.mod_lt _ (by norm_num)

/-- A SHA-1 digest has 20 bytes. -/
theorem sha1_length (msg : List Nat) : (sha1 msg).length = 20 := by
  simp only [sha1]
  rcases hfold : List.foldl sha1Block (1732584193, 4023233417, 2562383102, 271733878, 3285377520)
      (chunksOf 16 (bytesToWords (sha1Pad msg)).length (bytesToWords (sha1Pad msg))) with
    ⟨h0, h1, h2, h3, h4⟩
  simp [beBytes_length]

/-- A SHA-1 digest consists of bytes. -/
theorem sha1_lt (msg : List Nat) : ∀ b ∈ sha1 msg, b < 256 := by
  simp only [sha1]
  rcases hfold : List.foldl sha1Block (1732584193, 4023233417, 2562383102, 271733878, 3285377520)
      (chunksOf 16 (bytesToWords (sha1Pad msg)).length (bytesToWords (sha1Pad msg))) with
    ⟨h0, h1, h2, h3, h4⟩
  intro b hb
  simp only [List.mem_append] at hb
  rcases hb with ((((h | h) | h) | h) | h) <;> exact beBytes_lt _ _ _ h

/-- Or of two bytes is a byte. -/
theorem lor_byte_lt (a b : Nat) (ha : a < 256) (hb : b < 256) : Nat.lor a b < 256 := by
  have := Nat.bitwise_lt (f := or) (n := 8) ha hb
  simpa [Nat.lor] using this

/-- The UUID v5 byte string has 16 bytes. -/
theorem uuidV5Bytes_length (space data : List Nat) : (uuidV5Bytes space data).length = 16 := by
  unfold uuidV5Bytes
  simp [List.length_set, List.length_take, sha1_length]

/-- The UUID v5 byte string consists of bytes. -/
theorem uuidV5Bytes_lt (space data : List Nat) : ∀ b ∈ uuidV5Bytes space data, b < 256 := by
  intro b hb
  unfold uuidV5Bytes at hb
  rcases List.mem_or_eq_of_mem_set hb with hb' | hb'
  · rcases List.mem_or_eq_of_mem_set hb' with hb'' | hb''
    · exact sha1_lt _ _ (List.take_subset _ _ hb'')
    · subst hb''
      exact lor_byte_lt _ _ (lt_of_le_of_lt Nat.and_le_right (by norm_num)) (by norm_num)
  · subst hb'
    exact lor_byte_lt _ _ (lt_of_le_of_lt Nat.and_le_right (by norm_num)) (by norm_num)

/-- Two hex characters per byte. -/
theorem bytesHex_length (bs : List Nat) : (bytesHex bs).length = 2 * bs.length := by
  induction bs with
  | nil => rfl
  | cons b rest ih => simp [bytesHex, byteHex, ih]; ring

/-- `hexDigitChar` of a nibble is a lowercase hex digit. -/
theorem hexDigitChar_hex (n : Nat) (h : n < 16) : isHexLowerChar (hexDigitChar n) := by
  interval_cases n <;> decide

/-- Both characters of `byteHex` are lowercase hex digits. -/
theorem byteHex_hex (b : Nat) (h : b < 256) : ∀ c ∈ byteHex b, isHexLowerChar c := by
  intro c hc
  have h1 : b / 16 < 16 := by omega
  have h2 : b % 16 < 16 := by omega
  simp only [byteHex, List.mem_cons, List.not_mem_nil, or_false] at hc
  rcases hc with hc | hc <;> subst hc
  · exact hexDigitChar_hex _ h1
  · exact hexDigitChar_hex _ h2

/-- All characters of `bytesHex` over bytes are lowercase hex digits. -/
theorem bytesHex_hex (bs : List Nat) (h : ∀ b ∈ bs, b < 256) :
    ∀ c ∈ bytesHex bs, isHexLowerChar c := by
  induction bs with
  | nil => simp [bytesHex]
  | cons b rest ih =>
    intro c hc
    simp only [bytesHex, List.mem_append] at hc
    rcases hc with hc | hc
    · exact byteHex_hex b (h b (by simp)) c hc
    · exact ih (fun x hx => h x (by simp [hx])) c hc

/-- C1 counterexample: the document ID of the concrete bytes `"hello"` has
36 characters, not the 64 hex characters of a SHA-256. -/
theorem C1_counterexample :
    (generateID ("hello".data)).length = 36 ∧ (36 : Nat) ≠ 64 :=
  ⟨by decide, by decide⟩

/-- C1 (amended): for every byte string, the DocumentID embedded in the
URI returned by `SaveDocument` is the 36-character string form of a UUID
v5 derived (via SHA-1) from the content: five lowercase-hex groups of
8/4/4/4/12 digits separated by single hyphens.  Identity still holds —
the ID is a function of the content bytes alone. -/
theorem C1_documentID (content fn ts : Str) (st : Store) (t : DocumentType) :
    ∃ g1 g2 g3 g4 g5 : Str,
      generateID content = g1 ++ '-' :: (g2 ++ '-' :: (g3 ++ '-' :: (g4 ++ '-' :: g5))) ∧
      g1.length = 8 ∧ g2.length = 4 ∧ g3.length = 4 ∧ g4.length = 4 ∧ g5.length = 12 ∧
      (∀ c, (c ∈ g1 ∨ c ∈ g2 ∨ c ∈ g3 ∨ c ∈ g4 ∨ c ∈ g5) → isHexLowerChar c) ∧
      (generateID content).length = 36 ∧
      (saveDocument st t content fn ts).1 = t.str ++ "://".data ++ generateID content := by
  have hlen : (uuidV5Bytes dnsNamespaceBytes (sha1 (strBytes content))).length = 16 :=
    uuidV5Bytes_length _ _
  have hlt : ∀ b ∈ uuidV5Bytes dnsNamespaceBytes (sha1 (strBytes content)), b < 256 :=
    uuidV5Bytes_lt _ _
  refine ⟨bytesHex ((uuidV5Bytes dnsNamespaceBytes (sha1 (strBytes content))).take 4),
    bytesHex (((uuidV5Bytes dnsNamespaceBytes (sha1 (strBytes content))).drop 4).take 2),
    bytesHex (((uuidV5Bytes dnsNamespaceBytes (sha1 (strBytes content))).drop 6).take 2),
    bytesHex (((uuidV5Bytes dnsNamespaceBytes (sha1 (strBytes content))).drop 8).take 2),
    bytesHex ((uuidV5Bytes dnsNamespaceBytes (sha1 (strBytes content))).drop 10),
    rfl, ?_, ?_, ?_, ?_, ?_, ?_, ?_, ?_⟩
  · simp [bytesHex_length, hlen]
  · simp [bytesHex_length, hlen]
  · simp [bytesHex_length, hlen]
  · simp [bytesHex_length, hlen]
  · simp [bytesHex_length, hlen]
  · intro c hc
    rcases hc with hc | hc | hc | hc | hc
    · exact bytesHex_hex _ (fun b hb => hlt b (List.take_subset _ _ hb)) c hc
    · exact bytesHex_hex _
        (fun b hb => hlt b (List.drop_subset _ _ (List.take_subset _ _ hb))) c hc
    · exact bytesHex_hex _
        (fun b hb => hlt b (List.drop_subset _ _ (List.take_subset _ _ hb))) c hc
    · exact bytesHex_hex _
        (fun b hb => hlt b (List.drop_subset _ _ (List.take_subset _ _ hb))) c hc
    · exact bytesHex_hex _ (fun b hb => hlt b (List.drop_subset _ _ hb)) c hc
  · show (uuidToStr (uuidV5Bytes dnsNamespaceBytes (sha1 (strBytes content)))).length = 36
    simp [uuidToStr, bytesHex_length, hlen]
  · rw [saveDocument_fst]
    rfl

/-! ## C7 — ties are not sorted lexicographically

The swap loop of `getTopTerms` / `getMissingSkills` orders terms by
strictly descending score; equal-score terms end up in an order determined
by the map-iteration order (which Go randomises), not lexicographically,
so outputs are bit-identical across runs only up to ties. -/

/-- C7 counterexample: two iteration orders of the same two-entry map
`{a ↦ 1, b ↦ 1}` produce different `top_skills` lists, and the first is
not in lexicographic order. -/
theorem C7_counterexample :
    getTopTerms [(['b'], 1), (['a'], 1)] 2 = [['b'], ['a']] ∧
    getTopTerms [(['a'], 1), (['b'], 1)] 2 = [['a'], ['b']] ∧
    ([['b'], ['a']] : List Str) ≠ [['a'], ['b']] := by
  refine ⟨by decide, by decide, by decide⟩

/-- The inner swap loop keeps the list length. -/
theorem selOnce_length (cur : Str × ℚ) (l : TermMap) :
    (selOnce cur l).2.length = l.length := by
  induction l generalizing cur with
  | nil => rfl
  | cons x xs ih =>
    simp only [selOnce]
    by_cases h : x.2 > cur.2 <;> simp [h, ih]

/-- The inner swap loop permutes the current element and the tail. -/
theorem selOnce_perm (cur : Str × ℚ) (l : TermMap) :
    List.Perm ((selOnce cur l).1 :: (selOnce cur l).2) (cur :: l) := by
  induction l generalizing cur with
  | nil => simp [selOnce]
  | cons x xs ih =>
    simp only [selOnce]
    by_cases h : x.2 > cur.2
    · simp only [h, if_true]
      exact (List.Perm.swap cur (selOnce x xs).1 (selOnce x xs).2).trans ((ih x).cons cur)
    · simp only [h, if_false]
      exact ((List.Perm.swap x (selOnce cur xs).1 (selOnce cur xs).2).trans
        ((ih cur).cons x)).trans (List.Perm.swap cur x xs)

/-- The selected element's score dominates the current element and the
tail. -/
theorem selOnce_fst_ge (cur : Str × ℚ) (l : TermMap) :
    cur.2 ≤ (selOnce cur l).1.2 ∧ ∀ x ∈ l, x.2 ≤ (selOnce cur l).1.2 := by
  induction l generalizing cur with
  | nil => exact ⟨le_refl _, by simp⟩
  | cons x xs ih =>
    simp only [selOnce]
    by_cases h : x.2 > cur.2
    · simp only [h, if_true]
      refine ⟨le_of_lt (lt_of_lt_of_le h (ih x).1), ?_⟩
      intro y hy
      rcases List.mem_cons.mp hy with hy | hy
      · rw [hy]; exact (ih x).1
      · exact (ih x).2 y hy
    · simp only [h, if_false]
      refine ⟨(ih cur).1, ?_⟩
      intro y hy
      rcases List.mem_cons.mp hy with hy | hy
      · rw [hy]
        exact le_trans (not_lt.mp h) (ih cur).1
      · exact (ih cur).2 y hy

/-- The selected element's score dominates everything left in the tail. -/
theorem selOnce_fst_ge_snd (cur : Str × ℚ) (l : TermMap) :
    ∀ y ∈ (selOnce cur l).2, y.2 ≤ (selOnce cur l).1.2 := by
  intro y hy
  have hmem : y ∈ cur :: l :=
    (selOnce_perm cur l).subset (List.mem_cons_of_mem _ hy)
  rcases List.mem_cons.mp hmem with h | h
  · rw [h]; exact (selOnce_fst_ge cur l).1
  · exact (selOnce_fst_ge cur l).2 y h

/-- The outer loop permutes its input (given enough fuel). -/
theorem selSortFuel_perm (fuel : Nat) (l : TermMap) (h : l.length ≤ fuel) :
    List.Perm (selSortFuel fuel l) l := by
  induction fuel generalizing l with
  | zero =>
    have : l = [] := List.length_eq_zero.mp (Nat.le_zero.mp h)
    subst this; rfl
  | succ fuel ih =>
    cases l with
    | nil => rfl
    | cons x xs =>
      simp only [selSortFuel]
      have hlen : (selOnce x xs).2.length ≤ fuel := by
        rw [selOnce_length]
        exact Nat.le_of_succ_le_succ h
      exact ((ih _ hlen).cons (selOnce x xs).1).trans (selOnce_perm x xs)

/-- The outer loop sorts by weakly descending score (given enough fuel). -/
theorem selSortFuel_sorted (fuel : Nat) (l : TermMap) (h : l.length ≤ fuel) :
    List.Pairwise (fun p q : Str × ℚ => q.2 ≤ p.2) (selSortFuel fuel l) := by
  induction fuel generalizing l with
  | zero =>
    have : l = [] := List.length_eq_zero.mp (Nat.le_zero.mp h)
    subst this; exact List.Pairwise.nil
  | succ fuel ih =>
    cases l with
    | nil => exact List.Pairwise.nil
    | cons x xs =>
      simp only [selSortFuel]
      have hlen : (selOnce x xs).2.length ≤ fuel := by
        rw [selOnce_length]
        exact Nat.le_of_succ_le_succ h
      refine List.Pairwise.cons ?_ (ih _ hlen)
      intro y hy
      have : y ∈ (selOnce x xs).2 := (selSortFuel_perm fuel _ hlen).subset hy
      exact selOnce_fst_ge_snd x xs y this

/-- C7 (amended): `Analyze` is deterministic only as a function of its
inputs, the dictionary *and the iteration order of the internal term
maps*: the swap loop of `getTopTerms` (also used for `missing_skills` and
`common_terms`) produces a permutation of the term-map snapshot sorted by
weakly descending score, and `top_skills` is its `limit`-prefix of terms —
but equal-score terms stay in a loop- and iteration-order-dependent order,
not a lexicographic one, so outputs across runs are bit-identical only
when scores are tie-free. -/
theorem C7_swapLoopSort (terms : TermMap) (limit : Nat) :
    List.Perm (selSortTerms terms) terms ∧
    List.Pairwise (fun p q : Str × ℚ => q.2 ≤ p.2) (selSortTerms terms) ∧
    getTopTerms terms limit = ((selSortTerms terms).map Prod.fst).take (min limit terms.length) := by
  refine ⟨selSortFuel_perm _ _ (le_refl _), selSortFuel_sorted _ _ (le_refl _), ?_⟩
  simp [getTopTerms, List.map_take]

/-! ## C5 — identical inputs: match 100, no missing skills, but skill
coverage is 1.0 only when the text contains a dictionary skill

`Analyze` overwrites the BM25-based coverage with
`CalculateSkillCoverage(cvSkills, jdSkills)`, which returns 0.0 when the
JD yields *no* dictionary skills — so `Analyze(t, t)` has
`skill_coverage = 0.0` for any `t` without dictionary terms. -/

/-- Looking up a key present in an association list succeeds. -/
theorem lookup_isSome_of_mem_keys {α β : Type} [BEq α] [LawfulBEq α] (l : List (α × β)) (a : α)
    (hmem : a ∈ l.map Prod.fst) : (List.lookup a l).isSome = true := by
  induction l with
  | nil => simp at hmem
  | cons p rest ih =>
    rcases p with ⟨k, v⟩
    by_cases h : a = k
    · simp [List.lookup, h]
    · simp only [List.map_cons, List.mem_cons] at hmem
      rcases hmem with hmem | hmem
      · exact absurd hmem h
      · simp only [List.lookup, show (a == k) = false by simpa using h]
        exact ih hmem

/-- With duplicate-free keys, lookup of a member pair returns its value. -/
theorem lookup_eq_some_of_nodup {α β : Type} [BEq α] [LawfulBEq α] (l : List (α × β)) (a : α)
    (b : β) (hmem : (a, b) ∈ l) (hnd : (l.map Prod.fst).Nodup) : List.lookup a l = some b := by
  induction l with
  | nil => simp at hmem
  | cons p rest ih =>
    rcases p with ⟨k, v⟩
    simp only [List.map_cons, List.nodup_cons] at hnd
    rcases List.mem_cons.mp hmem with hmem' | hmem'
    · have ha : a = k := congrArg Prod.fst hmem'
      have hb : b = v := congrArg Prod.snd hmem'
      simp [List.lookup, ha, hb]
    · have hne : ¬ a = k := by
        intro h
        exact hnd.1 (h ▸ (List.mem_map.mpr ⟨(a, b), hmem', rfl⟩))
      simp only [List.lookup, show (a == k) = false by simpa using hne]
      exact ih hmem' hnd.2

/-- A filterMap acting as `some` on every member is the identity. -/
theorem filterMap_id_of {α : Type} (l : List α) (f : α → Option α)
    (h : ∀ a ∈ l, f a = some a) : l.filterMap f = l := by
  induction l with
  | nil => rfl
  | cons x xs ih =>
    rw [List.filterMap_cons, h x (by simp)]
    rw [ih (fun a ha => h a (by simp [ha]))]

/-- A filterMap that is `some` on every member keeps the length. -/
theorem length_filterMap_of_isSome {α β : Type} (l : List α) (f : α → Option β)
    (h : ∀ a ∈ l, (f a).isSome = true) : (l.filterMap f).length = l.length := by
  induction l with
  | nil => rfl
  | cons x xs ih =>
    rcases Option.isSome_iff_exists.mp (h x (by simp)) with ⟨b, hb⟩
    rw [List.filterMap_cons, hb]
    simp [ih (fun a ha => h a (by simp [ha]))]

/-- With duplicate-free keys, the common-term map of a map with itself is
the map. -/
theorem commonTermsOf_self (T : TermMap) (hnd : (T.map Prod.fst).Nodup) :
    commonTermsOf T T = T := by
  apply filterMap_id_of
  intro p hp
  have : List.lookup p.1 T = some p.2 :=
    lookup_eq_some_of_nodup T p.1 p.2 (by simpa using hp) hnd
  simp [this]

/-- The missing-term list of a map with itself is empty. -/
theorem missingOf_self (T : TermMap) : missingOf T T = [] := by
  rw [missingOf, List.filterMap_eq_nil_iff]
  intro p hp
  rw [lookup_isSome_of_mem_keys T p.1 (List.mem_map.mpr ⟨p, hp, rfl⟩)]
  rfl

/-- Skill coverage of a skill list against itself: 1 when non-empty, 0
when empty. -/
theorem calculateSkillCoverage_self (S : List Skill) :
    calculateSkillCoverage S S = if S = [] then 0 else 1 := by
  by_cases hS : S = []
  · subst hS; simp [calculateSkillCoverage, matchSkills]
  · have hlen : S.length ≠ 0 := fun h => hS (List.length_eq_zero.mp h)
    have hfound : (matchSkills S S).1.length = S.length := by
      apply length_filterMap_of_isSome
      intro j hj
      have hkey : j.name ∈ ((S.map (fun s => (s.name, s))).reverse).map Prod.fst := by
        rw [List.map_reverse, List.mem_reverse, List.map_map]
        exact List.mem_map.mpr ⟨j, hj, rfl⟩
      rcases Option.isSome_iff_exists.mp (lookup_isSome_of_mem_keys _ _ hkey) with ⟨c, hc⟩
      simp [hc]
    rw [calculateSkillCoverage, if_neg hlen, hfound]
    rw [div_self (by exact_mod_cast hlen)]
    simp [hS]

/-- C5 counterexample: for the identical non-empty text `hello world`
(which contains no dictionary skill), `Analyze(t, t)` returns
`match_percentage = 100` and empty `missing_skills` — but
`skill_coverage = 0.0`, not the claimed 1.0. -/
theorem C5_counterexample :
    (analyze extractUnit dictGolang ("hello world".data) ("hello world".data)).map
        (fun r => (r.matchPercentage, r.skillCoverage, r.missingSkills)) =
      some (100, 0, []) ∧ (0 : ℚ) ≠ 1 :=
  ⟨by decide, by decide⟩

/-- C5 (amended): for every text `t` that is non-empty after whitespace
normalisation, `Analyze(t, t)` — with the indexer returning the same term
map for the two identical documents (duplicate-free keys, positive total
weight) — yields `match_percentage = 100` and empty `missing_skills`,
while `skill_coverage` is 1.0 exactly when `t` yields at least one
dictionary skill and 0.0 otherwise. -/
theorem C5_identicalAnalysis (extract : Str → Str → TermMap × TermMap) (dict : Dict) (t : Str)
    (hne : ¬ preprocessText t = [])
    (hsym : (extract (preprocessText t) (preprocessText t)).1 =
      (extract (preprocessText t) (preprocessText t)).2)
    (hnodup : ((extract (preprocessText t) (preprocessText t)).2.map Prod.fst).Nodup)
    (hpos : 0 < ((extract (preprocessText t) (preprocessText t)).2.map Prod.snd).sum) :
    ∃ r, analyze extract dict t t = some r ∧
      r.matchPercentage = 100 ∧ r.missingSkills = [] ∧
      r.skillCoverage = (if extractSkills (preprocessText t) dict = [] then 0 else 1) := by
  have hmp : (calculateMatchMetrics (extract (preprocessText t) (preprocessText t)).2
      (extract (preprocessText t) (preprocessText t)).2).matchPercentage = 100 := by
    simp only [calculateMatchMetrics,
      commonTermsOf_self _ hnodup]
    rw [if_pos hpos, div_self (ne_of_gt hpos), one_mul]
    have h100 : truncQ 100 = 100 := by decide
    rw [h100]
    norm_num
  have hmiss : (calculateMatchMetrics (extract (preprocessText t) (preprocessText t)).2
      (extract (preprocessText t) (preprocessText t)).2).missingSkills = [] := by
    simp only [calculateMatchMetrics, missingOf_self]
    simp [getMissingSkills, selSortTerms, selSortFuel]
  have hcond : ¬ (preprocessText t = [] ∨ preprocessText t = []) := fun h => hne (h.elim id id)
  simp only [analyze]
  rw [if_neg hcond, hsym]
  refine ⟨_, rfl, ?_, ?_, ?_⟩
  · simpa using hmp
  · simpa using hmiss
  · simpa using calculateSkillCoverage_self (extractSkills (preprocessText t) dict)

/-- C5 witness: the identical text `golang` with the one-entry dictionary
and the unit indexer. -/
theorem C5_identicalAnalysis_witness :
    (¬ preprocessText ("golang".data) = []) ∧
    (∃ r, analyze extractUnit dictGolang ("golang".data) ("golang".data) = some r ∧
      r.matchPercentage = 100 ∧ r.missingSkills = [] ∧
      r.skillCoverage =
        (if extractSkills (preprocessText ("golang".data)) dictGolang = [] then 0 else 1)) :=
  ⟨by decide, C5_identicalAnalysis extractUnit dictGolang ("golang".data)
    (by decide) rfl (by decide) (by decide)⟩

/-! ## C2 — stripping the frontmatter trims the body

`stripFrontmatter` removes the frontmatter block and then calls
`strings.TrimSpace` on what is left, so the reader gets `TrimSpace(b)`,
not `b`.  The lemmas below trace the RE2 pattern `(?s)^---\n.*?\n---\n?`
on the exact file layout `SaveDocument` writes. -/

/-- One unfolding of the leftmost-match search. -/
theorem findSubIdx_eq (s pat : Str) :
    findSubIdx s pat =
      if startsWith s pat then some 0
      else
        match s with
        | [] => none
        | _ :: rest => (findSubIdx rest pat).map (· + 1) := by
  cases s <;> rw [findSubIdx]

/-- A match at the start. -/
theorem findSubIdx_of_startsWith (s pat : Str) (h : startsWith s pat = true) :
    findSubIdx s pat = some 0 := by
  rw [findSubIdx_eq, if_pos h]

/-- No match at the head: search the tail, shifted by one. -/
theorem findSubIdx_cons_of_not (c : Char) (s pat : Str)
    (h : ¬ startsWith (c :: s) pat = true) :
    findSubIdx (c :: s) pat = (findSubIdx s pat).map (· + 1) := by
  rw [findSubIdx_eq, if_neg h]

/-- `startsWith` unfolded. -/
theorem startsWith_iff (s p : Str) : startsWith s p = true ↔ s.take p.length = p := by
  simp [startsWith]

/-- Different head characters: no prefix match. -/
theorem not_startsWith_cons_of_ne (c d : Char) (s p : Str) (h : ¬ c = d) :
    ¬ startsWith (c :: s) (d :: p) = true := by
  rw [startsWith_iff]
  intro hc
  rw [List.length_cons, List.take_succ_cons] at hc
  exact h (List.cons.injEq .. ▸ hc).1

/-- Equal head characters: prefix match reduces to the tails. -/
theorem startsWith_cons_cons (c : Char) (s p : Str) :
    startsWith (c :: s) (c :: p) = startsWith s p := by
  simp [startsWith, List.length_cons, List.take_succ_cons]

/-- Searching for `'\n' :: p'` skips any newline-free prefix. -/
theorem findSubIdx_skip (u : Str) (p' : Str) :
    ∀ v : Str, '\n' ∉ u →
      findSubIdx (u ++ v) ('\n' :: p') = (findSubIdx v ('\n' :: p')).map (· + u.length) := by
  induction u with
  | nil =>
    intro v _
    rw [List.nil_append]
    cases findSubIdx v ('\n' :: p') <;> simp
  | cons c u' ih =>
    intro v hu
    have hc : ¬ c = '\n' := fun h => hu (h ▸ List.mem_cons_self c u')
    rw [List.cons_append,
      findSubIdx_cons_of_not c (u' ++ v) ('\n' :: p') (not_startsWith_cons_of_ne c '\n' _ _ hc),
      ih v (fun h => hu (List.mem_cons_of_mem c h))]
    cases findSubIdx v ('\n' :: p') <;> simp [List.length_cons] <;> omega

/-- Searching for `'\n' :: p'` passes a newline that is not followed by
`p'`. -/
theorem findSubIdx_skip_nl (v p' : Str) (hv : ¬ startsWith v p' = true) :
    findSubIdx ('\n' :: v) ('\n' :: p') = (findSubIdx v ('\n' :: p')).map (· + 1) := by
  apply findSubIdx_cons_of_not
  rw [startsWith_cons_cons]
  exact hv

/-- Dropping a leading whitespace character before trimming. -/
theorem trimSpace_cons_ws (c : Char) (s : Str) (h : isSpaceChar c = true) :
    trimSpace (c :: s) = trimSpace s := by
  simp [trimSpace, List.dropWhile_cons, h]

/-- Dropping the opening `---\n` of the frontmatter. -/
theorem drop4_dashes (T : Str) : ("---\n".data ++ T).drop 4 = T := rfl

/-- Closed form of the strip: the content decomposes as a block of
`4 + i + 4` characters followed by `'\n' :: '\n' :: b` exactly when the
leftmost `"\n---"` sits at offset `i` of the dropped content; the result
is the trimmed body. -/
theorem stripFrontmatter_closed (content b Q : Str) (N : Nat)
    (hsplit : content = Q ++ ('\n' :: '\n' :: b))
    (hstart : startsWith content ("---\n".data) = true)
    (hfind : findSubIdx (content.drop 4) ("\n---".data) = some N)
    (hN : 4 + N + 4 = Q.length) :
    stripFrontmatter content = trimSpace b := by
  unfold stripFrontmatter
  rw [if_pos hstart, hfind]
  have hdrop : content.drop (4 + N + 4) = '\n' :: '\n' :: b := by
    rw [hsplit, hN, List.drop_left]
  show trimSpace (match content.drop (4 + N + 4) with
    | '\n' :: r => r
    | r => r) = trimSpace b
  rw [hdrop]
  show trimSpace ('\n' :: b) = trimSpace b
  exact trimSpace_cons_ws '\n' b (by decide)

/-- The strip of the exact file layout `SaveDocument` writes: the
frontmatter disappears and the body is trimmed.  `id`, `fn` and `ts` must
be newline-free (the generated ID is, see `generateID_no_nl`). -/
theorem stripFrontmatter_frontmatter (id fn ts b : Str) (t : DocumentType)
    (hid : '\n' ∉ id) (hfn : '\n' ∉ fn) (hts : '\n' ∉ ts) :
    stripFrontmatter (frontmatterFor id fn ts t ++ b) = trimSpace b := by
  have htst : '\n' ∉ t.str := by cases t <;> decide
  -- fully right-nested form of the file contents
  have hc2 : frontmatterFor id fn ts t ++ b =
      "---\n".data ++ ("id: ".data ++ (id ++ ('\n' :: ("original_filename: ".data ++ (fn ++ ('\n' :: ("ingested_at: ".data ++ (ts ++ ('\n' :: ("type: ".data ++ (t.str ++ ('\n' :: ("---".data ++ '\n' :: '\n' :: b))))))))))))) := by
    simp only [frontmatterFor, List.append_assoc]
    rfl
  have hfind : findSubIdx ((frontmatterFor id fn ts t ++ b).drop 4) ("\n---".data) =
      some (45 + (id.length + fn.length + ts.length + t.str.length)) := by
    rw [hc2, drop4_dashes]
    rw [show ("\n---".data : Str) = '\n' :: "---".data from rfl]
    rw [findSubIdx_skip ("id: ".data) ("---".data) _ (by decide)]
    rw [findSubIdx_skip id ("---".data) _ hid]
    have hw1 : ¬ startsWith ("original_filename: ".data ++ (fn ++ ('\n' :: ("ingested_at: ".data ++ (ts ++ ('\n' :: ("type: ".data ++ (t.str ++ ('\n' :: ("---".data ++ '\n' :: '\n' :: b))))))))))
        ("---".data) = true :=
      not_startsWith_cons_of_ne 'o' '-' _ _ (by decide)
    rw [findSubIdx_skip_nl _ _ hw1]
    rw [findSubIdx_skip ("original_filename: ".data) ("---".data) _ (by decide)]
    rw [findSubIdx_skip fn ("---".data) _ hfn]
    have hw2 : ¬ startsWith ("ingested_at: ".data ++ (ts ++ ('\n' :: ("type: ".data ++ (t.str ++ ('\n' :: ("---".data ++ '\n' :: '\n' :: b)))))))
        ("---".data) = true :=
      not_startsWith_cons_of_ne 'i' '-' _ _ (by decide)
    rw [findSubIdx_skip_nl _ _ hw2]
    rw [findSubIdx_skip ("ingested_at: ".data) ("---".data) _ (by decide)]
    rw [findSubIdx_skip ts ("---".data) _ hts]
    have hw3 : ¬ startsWith ("type: ".data ++ (t.str ++ ('\n' :: ("---".data ++ '\n' :: '\n' :: b))))
        ("---".data) = true :=
      not_startsWith_cons_of_ne 't' '-' _ _ (by decide)
    rw [findSubIdx_skip_nl _ _ hw3]
    rw [findSubIdx_skip ("type: ".data) ("---".data) _ (by decide)]
    rw [findSubIdx_skip t.str ("---".data) _ htst]
    have hw4 : startsWith ('\n' :: ("---".data ++ ('\n' :: '\n' :: b)))
        ('\n' :: "---".data) = true := by
      rw [startsWith_cons_cons]
      rfl
    rw [findSubIdx_of_startsWith _ _ hw4]
    simp only [Option.map_some', Option.some.injEq,
      show (("id: ".data : Str)).length = 4 from rfl,
      show (("original_filename: ".data : Str)).length = 19 from rfl,
      show (("ingested_at: ".data : Str)).length = 13 from rfl,
      show (("type: ".data : Str)).length = 6 from rfl]
    omega
  refine stripFrontmatter_closed (frontmatterFor id fn ts t ++ b) b
    ("---\nid: ".data ++ id ++ "\noriginal_filename: ".data ++ fn ++
      "\ningested_at: ".data ++ ts ++ "\ntype: ".data ++ t.str ++ "\n---".data)
    (45 + (id.length + fn.length + ts.length + t.str.length)) ?_ rfl hfind ?_
  · simp only [frontmatterFor, List.append_assoc]
    rfl
  · simp only [List.length_append,
      show (("---\nid: ".data : Str)).length = 8 from rfl,
      show (("\noriginal_filename: ".data : Str)).length = 20 from rfl,
      show (("\ningested_at: ".data : Str)).length = 14 from rfl,
      show (("\ntype: ".data : Str)).length = 7 from rfl,
      show (("\n---".data : Str)).length = 4 from rfl]
    omega

/-- A `takeWhile` whose predicate holds everywhere is the identity. -/
theorem takeWhile_all {α : Type} (p : α → Bool) (l : List α)
    (h : ∀ x ∈ l, p x = true) : l.takeWhile p = l := by
  induction l with
  | nil => rfl
  | cons a l ih =>
    simp [List.takeWhile_cons, h a (List.mem_cons_self a l),
      ih (fun x hx => h x (List.mem_cons_of_mem a hx))]

/-- Membership in a `takeWhile` implies membership in the list. -/
theorem mem_of_mem_takeWhile {α : Type} (p : α → Bool) (l : List α) (x : α)
    (h : x ∈ l.takeWhile p) : x ∈ l := by
  induction l with
  | nil => simp [List.takeWhile] at h
  | cons a l ih =>
    cases hpa : p a with
    | false => simp [List.takeWhile_cons, hpa] at h
    | true =>
      simp only [List.takeWhile_cons, hpa, if_true] at h
      rcases List.mem_cons.mp h with h | h
      · exact h ▸ List.mem_cons_self a l
      · exact List.mem_cons_of_mem a (ih h)

/-- Membership in a `takeWhile` implies the predicate. -/
theorem pred_of_mem_takeWhile {α : Type} (p : α → Bool) (l : List α) (x : α)
    (h : x ∈ l.takeWhile p) : p x = true := by
  induction l with
  | nil => simp [List.takeWhile] at h
  | cons a l ih =>
    cases hpa : p a with
    | false => simp [List.takeWhile_cons, hpa] at h
    | true =>
      simp only [List.takeWhile_cons, hpa, if_true] at h
      rcases List.mem_cons.mp h with h | h
      · rw [h]; exact hpa
      · exact ih h

/-- A name of the form `id ++ ext` with no slashes and a dot somewhere in
`ext` has a non-empty extension under `filepath.Ext`. -/
theorem extOf_append_ne (id ext : Str) (hid : '/' ∉ id) (hext : '/' ∉ ext)
    (hdot : '.' ∈ ext) : ¬ extOf (id ++ ext) = [] := by
  have hslash : ∀ c ∈ (id ++ ext).reverse, ¬ c = '/' := by
    intro c hc he
    rcases List.mem_append.mp (List.mem_reverse.mp hc) with h' | h'
    · exact hid (he ▸ h')
    · exact hext (he ▸ h')
  have hrev : List.takeWhile (fun c => decide (c ≠ '/')) (id ++ ext).reverse =
      (id ++ ext).reverse :=
    takeWhile_all _ _ (fun x hx => by simpa using hslash x hx)
  intro h
  simp only [extOf] at h
  rw [hrev] at h
  split at h
  · rename_i hc
    have hpre := (List.takeWhile_prefix (fun c => decide (c ≠ '.'))).eq_of_length hc
    have hmem : '.' ∈ (id ++ ext).reverse :=
      List.mem_reverse.mpr (List.mem_append.mpr (Or.inr hdot))
    rw [← hpre] at hmem
    have := pred_of_mem_takeWhile _ _ _ hmem
    simp at this
  · simp at h

/-- The extension `SaveDocument` picks always contains a dot. -/
theorem chooseExt_dot (fn : Str) : '.' ∈ chooseExt fn := by
  unfold chooseExt
  split
  · decide
  · rename_i hne
    simp only [extOf]
    split
    · rename_i hc
      exact absurd (by simp only [extOf]; rw [if_pos hc]) hne
    · exact List.mem_cons_self '.' _

/-- The extension `SaveDocument` picks never contains a slash. -/
theorem chooseExt_no_slash (fn : Str) : '/' ∉ chooseExt fn := by
  unfold chooseExt
  split
  · decide
  · intro hmem
    simp only [extOf] at hmem
    split at hmem
    · simp at hmem
    · rcases List.mem_cons.mp hmem with h | h
      · exact absurd h (by decide)
      · have h2 := mem_of_mem_takeWhile _ _ _ (List.mem_reverse.mp h)
        have h3 := pred_of_mem_takeWhile _ _ _ h2
        simp at h3

/-- Every character of a generated document ID is a hyphen or a lowercase
hex digit. -/
theorem mem_generateID (content : Str) (c : Char) (hc : c ∈ generateID content) :
    c = '-' ∨ isHexLowerChar c := by
  have hlt : ∀ x ∈ uuidV5Bytes dnsNamespaceBytes (sha1 (strBytes content)), x < 256 :=
    uuidV5Bytes_lt _ _
  unfold generateID uuidToStr at hc
  simp only [List.mem_append, List.mem_cons] at hc
  rcases hc with h | h | h | h | h | h | h | h | h
  · exact Or.inr (bytesHex_hex _ (fun x hx => hlt x (List.take_subset _ _ hx)) c h)
  · exact Or.inl h
  · exact Or.inr (bytesHex_hex _
      (fun x hx => hlt x (List.drop_subset _ _ (List.take_subset _ _ hx))) c h)
  · exact Or.inl h
  · exact Or.inr (bytesHex_hex _
      (fun x hx => hlt x (List.drop_subset _ _ (List.take_subset _ _ hx))) c h)
  · exact Or.inl h
  · exact Or.inr (bytesHex_hex _
      (fun x hx => hlt x (List.drop_subset _ _ (List.take_subset _ _ hx))) c h)
  · exact Or.inl h
  · exact Or.inr (bytesHex_hex _ (fun x hx => hlt x (List.drop_subset _ _ hx)) c h)

/-- A generated document ID has 36 characters. -/
theorem generateID_length36 (content : Str) : (generateID content).length = 36 := by
  have hlen := uuidV5Bytes_length dnsNamespaceBytes (sha1 (strBytes content))
  unfold generateID uuidToStr
  simp [bytesHex_length, hlen]

/-- A generated document ID is non-empty. -/
theorem generateID_ne_nil (content : Str) : ¬ generateID content = [] := by
  intro h
  have h36 := generateID_length36 content
  rw [h] at h36
  simp at h36

/-- A generated document ID contains no newline. -/
theorem generateID_no_nl (content : Str) : '\n' ∉ generateID content := by
  intro h
  rcases mem_generateID content '\n' h with h' | h'
  · exact absurd h' (by decide)
  · exact absurd h' (by decide)

/-- A generated document ID contains no slash. -/
theorem generateID_no_slash (content : Str) : '/' ∉ generateID content := by
  intro h
  rcases mem_generateID content '/' h with h' | h'
  · exact absurd h' (by decide)
  · exact absurd h' (by decide)

/-- `ParseURI` inverts the URI construction for a non-empty ID. -/
theorem parseURI_uriOf (t : DocumentType) (id : Str) (h : ¬ id = []) :
    parseURI (uriOf t id) = some (t, id) := by
  have hp : 0 < id.length := List.length_pos.mpr h
  cases t
  · rw [show uriOf .cv id = "cv://".data ++ id from rfl]
    unfold parseURI
    have h1 : ¬ ("cv://".data ++ id).length < 6 := by
      rw [List.length_append, show (("cv://".data : Str)).length = 5 from rfl]
      omega
    rw [if_neg h1,
      if_pos (by rw [show (5 : Nat) = (("cv://".data : Str)).length from rfl, List.take_left]),
      show ("cv://".data ++ id).drop 5 = ("cv://".data ++ id).drop ("cv://".data : Str).length
        from rfl,
      List.drop_left]
  · rw [show uriOf .jd id = "jd://".data ++ id from rfl]
    unfold parseURI
    have h1 : ¬ ("jd://".data ++ id).length < 6 := by
      rw [List.length_append, show (("jd://".data : Str)).length = 5 from rfl]
      omega
    have h2 : ¬ ("jd://".data ++ id).take 5 = "cv://".data := by
      rw [show (5 : Nat) = (("jd://".data : Str)).length from rfl, List.take_left]
      decide
    rw [if_neg h1, if_neg h2,
      if_pos (by rw [show (5 : Nat) = (("jd://".data : Str)).length from rfl, List.take_left]),
      show ("jd://".data ++ id).drop 5 = ("jd://".data ++ id).drop ("jd://".data : Str).length
        from rfl,
      List.drop_left]

/-- The directory scan finds the single stored file whose name extends the
ID (no panic: the name is at least as long as the ID). -/
theorem findDocEntry_found (id ext file : Str) (hne : ¬ extOf (id ++ ext) = []) :
    findDocEntry id [{ name := id ++ ext, isDir := false, content := file }] =
      .ok (some (id ++ ext)) := by
  unfold findDocEntry
  rw [if_pos (by exact ⟨by simp, hne⟩)]
  rw [if_neg (by rw [List.length_append]; omega)]
  rw [if_pos (Or.inl (List.take_left id ext))]

/-- Reading the single stored file back. -/
theorem readFileD_found (n c : Str) :
    readFileD [{ name := n, isDir := false, content := c }] n = some c := by
  simp [readFileD, List.find?]

/-- Saving to an empty store and reading the URI back returns the full
file: the frontmatter block followed by the body. -/
theorem readDocument_fresh_save (t : DocumentType) (b fn ts : Str) :
    readDocument (saveDocument { cvDir := [], jdDir := [] } t b fn ts).2
        (saveDocument { cvDir := [], jdDir := [] } t b fn ts).1 =
      .ok (some (frontmatterFor (generateID b) fn ts t ++ b)) := by
  have hne := generateID_ne_nil b
  have hfound := findDocEntry_found (generateID b) (chooseExt fn)
      (frontmatterFor (generateID b) fn ts t ++ b)
      (extOf_append_ne _ _ (generateID_no_slash b) (chooseExt_no_slash fn) (chooseExt_dot fn))
  have hstat : ¬ statFile (Store.dir { cvDir := [], jdDir := [] } t)
      (generateID b ++ chooseExt fn) = true := by
    cases t <;> simp [statFile, Store.dir]
  rw [saveDocument_fst, saveDocument_snd_neg _ _ _ _ _ hstat]
  have hdir0 : Store.dir { cvDir := [], jdDir := [] } t = [] := by cases t <;> rfl
  rw [hdir0]
  rw [show writeFile [] (generateID b ++ chooseExt fn)
        (frontmatterFor (generateID b) fn ts t ++ b) =
      [{ name := generateID b ++ chooseExt fn, isDir := false,
         content := frontmatterFor (generateID b) fn ts t ++ b }] from rfl]
  simp only [readDocument, getDocumentPath, parseURI_uriOf t _ hne, Store.dir_setDir,
    hfound, readFileD_found]

/-- C2 counterexample: saving the body `hello`-newline and reading it back
returns frontmatter ++ body, but stripping the frontmatter yields `hello`
without the newline — the strip is not bytewise the supplied body. -/
theorem C2_counterexample :
    readDocument (saveDocument { cvDir := [], jdDir := [] } .cv ("hello\n".data)
        ("a.md".data) ("2024-01-01T00:00:00Z".data)).2
      (saveDocument { cvDir := [], jdDir := [] } .cv ("hello\n".data)
        ("a.md".data) ("2024-01-01T00:00:00Z".data)).1 =
      .ok (some (frontmatterFor (generateID ("hello\n".data)) ("a.md".data)
        ("2024-01-01T00:00:00Z".data) .cv ++ "hello\n".data)) ∧
    stripFrontmatter (frontmatterFor (generateID ("hello\n".data)) ("a.md".data)
        ("2024-01-01T00:00:00Z".data) .cv ++ "hello\n".data) = "hello".data ∧
    ¬ ("hello".data : Str) = "hello\n".data := by
  refine ⟨readDocument_fresh_save .cv _ _ _, ?_, by decide⟩
  rw [stripFrontmatter_frontmatter _ _ _ _ _ (generateID_no_nl _) (by decide) (by decide)]
  decide

/-- C2 (amended): for a fresh store, Read(Save(k,b,fn)) returns
frontmatter ++ b; stripping the frontmatter from the returned file yields
TrimSpace(b) — the body with leading and trailing whitespace removed —
not bytewise b in general (they agree exactly when b has no leading or
trailing whitespace).  The filename and timestamp must be newline-free;
the generated ID always is. -/
theorem C2_readStrip (t : DocumentType) (b fn ts : Str)
    (hfn : '\n' ∉ fn) (hts : '\n' ∉ ts) :
    readDocument (saveDocument { cvDir := [], jdDir := [] } t b fn ts).2
        (saveDocument { cvDir := [], jdDir := [] } t b fn ts).1 =
      .ok (some (frontmatterFor (generateID b) fn ts t ++ b)) ∧
    stripFrontmatter (frontmatterFor (generateID b) fn ts t ++ b) = trimSpace b :=
  ⟨readDocument_fresh_save t b fn ts,
   stripFrontmatter_frontmatter _ _ _ _ _ (generateID_no_nl b) hfn hts⟩

/-- C2 witness: the concrete save of the body `x` under the filename
`a.md` round-trips and strips to `TrimSpace` of the body. -/
theorem C2_readStrip_witness :
    ('\n' ∉ ("a.md".data : Str)) ∧ ('\n' ∉ ("2024-01-01T00:00:00Z".data : Str)) ∧
    (readDocument (saveDocument { cvDir := [], jdDir := [] } .cv ("x".data)
          ("a.md".data) ("2024-01-01T00:00:00Z".data)).2
        (saveDocument { cvDir := [], jdDir := [] } .cv ("x".data)
          ("a.md".data) ("2024-01-01T00:00:00Z".data)).1 =
      .ok (some (frontmatterFor (generateID ("x".data)) ("a.md".data)
        ("2024-01-01T00:00:00Z".data) .cv ++ "x".data)) ∧
    stripFrontmatter (frontmatterFor (generateID ("x".data)) ("a.md".data)
        ("2024-01-01T00:00:00Z".data) .cv ++ "x".data) = trimSpace ("x".data)) :=
  ⟨by decide, by decide,
   C2_readStrip .cv ("x".data) ("a.md".data) ("2024-01-01T00:00:00Z".data)
     (by decide) (by decide)⟩

end Vibecheck
